import Mathlib

/-!
# AutoDirector backend — verification of the planning-and-execution engine

Shallow embedding of the AutoDirector backend (an Express/Playwright
service that turns free-text prompts into step sequences and executes
them).  The repository contains several near-duplicate iterations of the
same server; the embedding below follows the concrete iterations that the
specification's claims cite:

* `P007`  — the `/api/plan`, `/api/run` service (`src/unnamed/part_007`,
  repeated verbatim as the second half of `src/unnamed/part_012`):
  credit accounting, the asynchronous run executor with a `RunRecord`
  (`status`/`logs`/`shots`), and the `forwardLastEmail` helper.
* `P012`  — the synchronous `/plan` + `/run` service (first half of
  `src/unnamed/part_012`): the heuristic planner `planFromPrompt`, the
  `extractLinks` truncation, the `newestFileIn` helper and the `switch`
  step dispatcher.
* `P003`  — the minimal `/plan` backend (`src/unnamed/part_003`):
  `parsePrompt` with its `noop` fallback.
* `P006`  — the `topLinks` pipeline (`src/unnamed/part_006`): URL
  normalisation, de-duplication, ranking and the one-element fallback.
* `P013`  — the `/run` executor with per-run `state`
  (`src/unnamed/part_013`).
* `SpecJobs` — the persisted-job / Monitor sweep subsystem, which is not
  present under `src/`; it is modelled from the specification text.

External capabilities (the Playwright browser, SMTP/IMAP transports, the
OpenAI endpoints, the filesystem clock) are modelled as environments of
outcome functions: a call either returns a value or raises an error
message, exactly where the JavaScript `await` can throw.  Wall-clock
timestamps that the sources prepend to log lines are external and omitted;
the log *messages* are modelled exactly.
-/

/-! ## JavaScript-value helpers

Small helpers for JavaScript truthiness on optional strings and numbers.
`none` models an absent (`undefined`) field and `some ""` an empty string;
both are falsy. -/

/-- JavaScript `a || d` for an optional string `a`: an absent field and the
empty string are falsy. -/
def jsOrS (a : Option String) (d : String) : String :=
  match a with
  | some s => if s = "" then d else s
  | none => d

/-- JavaScript truthiness of an optional string. -/
def jsTruthy (a : Option String) : Bool :=
  match a with
  | some s => s ≠ ""
  | none => false

/-- JavaScript `a || d` for an optional number: absent and `0` are falsy. -/
def jsOrI (a : Option Int) (d : Int) : Int :=
  match a with
  | some n => if n = 0 then d else n
  | none => d

/-- Interpolation of a possibly-absent field into a template literal:
JavaScript prints `undefined` for a missing value. -/
def jsShow (a : Option String) : String :=
  match a with
  | some s => s
  | none => "undefined"

/-- ASCII lower-casing of a string (JavaScript `toLowerCase` on the
ASCII range), computed on the character list. -/
def jsToLower (s : String) : String := String.mk (s.data.map Char.toLower)

/-- JavaScript `String.prototype.trim`, computed on the character list. -/
def jsTrim (s : String) : String :=
  String.mk (((s.data.dropWhile Char.isWhitespace).reverse.dropWhile Char.isWhitespace).reverse)

/-- JavaScript `String.prototype.startsWith`. -/
def strStarts (s p : String) : Bool := p.data.isPrefixOf s.data

/-- JavaScript `String.prototype.endsWith`. -/
def strEnds (s p : String) : Bool := decide (List.IsSuffix p.data s.data)

/-- Case-insensitive substring test: `/w/i.test(text)` for a literal
word `w` (given lower-case). -/
def containsCI (text w : String) : Bool :=
  decide (List.IsInfix w.data (jsToLower text).data)

namespace P007

/-! ## P007: the `/api/run` service (`src/unnamed/part_007`)

The same code appears again at the end of `src/unnamed/part_012`
(`POST /api/run`); the two differ only in variable names. -/

/-- The externally observable record of one run: `runs.set(id, { status:
"running", logs:[], shots:[], videoUrl:null })`, mutated by the background
task.  Log lines are modelled without their `new Date().toISOString()`
prefix (wall clock is external). -/
structure RunRecord where
  status : String
  logs : List String
  shots : List String
  videoUrl : Option String
  deriving DecidableEq

/-- The record created at run start. -/
def initRecord : RunRecord := ⟨"running", [], [], none⟩

/-- One step of a flow, with the parameters each branch of the dispatch
chain reads (`Option` models a possibly-absent JSON field).  An action tag
other than the six handled ones matches no branch of the `if`/`else if`
chain. -/
inductive BAction where
  | goto (url : Option String) (textF : Option String)
  | click (selector : Option String)
  | typeField (selector : Option String) (textF : Option String) (enter : Bool)
  | waitFor (stateF : Option String)
  | screenshot
  | gmailForwardLast (toAddr : Option String)
  | other (tag : String)
  deriving DecidableEq

/-- A flow as received by `/api/run`: `{ start_url?, steps }`. -/
structure Flow where
  startUrl : Option String
  steps : List BAction
  deriving DecidableEq

/-- Outcomes of the external calls the executor awaits.  `cap i a` is the
result of the external capability invoked for step `a` at index `i`
(`page.goto`/`click`/`fill`/`waitForLoadState`/`screenshot`, or
`forwardLastEmail`'s IMAP+SMTP round trip): `.ok ()` for success,
`.error m` for a thrown exception with message `m`.  `msgId i` is the
SMTP `info.messageId` logged by a successful `forwardLastEmail`.
`startCap` is the outcome of the initial `page.goto(flow.start_url)` and
`video` the value of `page.video()?.path()`. -/
structure Env where
  cap : Nat → BAction → Except String Unit
  msgId : Nat → String
  startCap : String → Except String Unit
  video : Option String

/-- Append one message to the run log (`logPush` in the source, minus the
timestamp prefix). -/
def logPush (logs : List String) (m : String) : List String := logs ++ [m]

/-- The `const url = s.url || s.text || ""` computation of the `goto`
branch. -/
def gotoUrl (u t : Option String) : String := jsOrS u (jsOrS t "")

/-- Execute one step of the `for (const [i,s] of flow.steps.entries())`
loop: append the branch's log line, then await the external capability.
Returns the updated record and `some m` when the capability threw `m`.
The un-handled tag (`other`) matches no branch: nothing is logged and no
capability runs. -/
def execStep (env : Env) (id : String) (i : Nat) (a : BAction) (r : RunRecord) :
    RunRecord × Option String :=
  match a with
  | .goto u t =>
      let r := { r with logs := logPush r.logs ("[" ++ toString i ++ "] goto " ++ gotoUrl u t) }
      match env.cap i a with
      | .ok _ => (r, none)
      | .error m => (r, some m)
  | .click sel =>
      let r := { r with logs := logPush r.logs ("[" ++ toString i ++ "] click " ++ jsShow sel) }
      match env.cap i a with
      | .ok _ => (r, none)
      | .error m => (r, some m)
  | .typeField sel _ _ =>
      let r := { r with logs := logPush r.logs ("[" ++ toString i ++ "] type " ++ jsShow sel) }
      match env.cap i a with
      | .ok _ => (r, none)
      | .error m => (r, some m)
  | .waitFor st =>
      let r := { r with logs := logPush r.logs ("[" ++ toString i ++ "] wait " ++ jsShow st) }
      match env.cap i a with
      | .ok _ => (r, none)
      | .error m => (r, some m)
  | .screenshot =>
      let r := { r with logs := logPush r.logs ("[" ++ toString i ++ "] screenshot") }
      match env.cap i a with
      | .ok _ => ({ r with shots := r.shots ++ ["/runs/" ++ id ++ "-" ++ toString i ++ ".png"] }, none)
      | .error m => (r, some m)
  | .gmailForwardLast toAddr =>
      let r := { r with logs := logPush r.logs ("[" ++ toString i ++ "] gmail_forward_last → " ++ jsShow toAddr) }
      match env.cap i a with
      | .ok _ =>
          let mid := env.msgId i
          ({ r with logs := logPush r.logs ("Forwarded with MessageID: " ++ mid) }, none)
      | .error m => (r, some m)
  | .other _ => (r, none)

/-- The step loop: strictly sequential; stops at the first thrown
exception (which the enclosing `try` will catch). -/
def execSteps (env : Env) (id : String) : List BAction → Nat → RunRecord → RunRecord × Option String
  | [], _, r => (r, none)
  | a :: rest, i, r =>
      match execStep env id i a r with
      | (r', none) => execSteps env id rest (i + 1) r'
      | (r', some m) => (r', some m)

/-- The `if (flow.start_url) { log(...); await page.goto(...) }` prologue
of the browser path (an empty `start_url` is falsy and skipped). -/
def startPhase (env : Env) (su : Option String) (r : RunRecord) : RunRecord × Option String :=
  match su with
  | none => (r, none)
  | some u =>
      if u = "" then (r, none)
      else
        let r := { r with logs := logPush r.logs ("goto " ++ u) }
        match env.startCap u with
        | .ok _ => (r, none)
        | .error m => (r, some m)

/-- The record finalisation of the `catch` block: `log("ERROR: " +
e.message); r.status = "error"`. -/
def errorFinal (r : RunRecord) (m : String) : RunRecord :=
  { r with status := "error", logs := logPush r.logs ("ERROR: " ++ m) }

/-- The browser-automation path of the background task: start-url
prologue, the step loop, then on success the video URL is recorded and the
status becomes `done`; any thrown exception reaches the `catch` block,
which appends `ERROR: <message>` and sets the status to `error`. -/
def bpRun (env : Env) (id : String) (su : Option String) (steps : List BAction)
    (r0 : RunRecord) : RunRecord :=
  match startPhase env su r0 with
  | (r, some m) => errorFinal r m
  | (r1, none) =>
      match execSteps env id steps 0 r1 with
      | (r, some m) => errorFinal r m
      | (r, none) =>
          { r with status := "done", videoUrl := env.video.map (fun v => "/" ++ v) }

/-- The `flow.steps?.length === 1 && flow.steps[0].action ===
"gmail_forward_last"` test selecting the dedicated no-browser path. -/
def isSingleGmail : List BAction → Bool
  | [BAction.gmailForwardLast _] => true
  | _ => false

/-- Is a step's action tag outside the six handled ones (an
unknown-kind step)? -/
def isOther : BAction → Bool
  | .other _ => true
  | _ => false

/-- The whole background task of `POST /api/run`: the single
`gmail_forward_last` special path, or the browser path. -/
def apiRunTask (env : Env) (id : String) (flow : Flow) (r0 : RunRecord) : RunRecord :=
  match flow.steps with
  | [BAction.gmailForwardLast toAddr] =>
      let r := { r0 with logs := logPush r0.logs ("gmail_forward_last → " ++ jsShow toAddr) }
      match env.cap 0 (BAction.gmailForwardLast toAddr) with
      | .ok _ =>
          let mid := env.msgId 0
          { r with status := "done", logs := logPush r.logs ("Forwarded with MessageID: " ++ mid) }
      | .error m => errorFinal r m
  | _ => bpRun env id flow.startUrl flow.steps r0

/-! ### Credit accounting of `POST /api/run` -/

/-- The in-memory `users` map (`id -> { credits }`), as an association
list. -/
abbrev Users := List (String × Int)

/-- Does the map contain the id (`users.has(id)`). -/
def hasUser (users : Users) (id : String) : Bool := users.any (fun p => p.1 = id)

/-- `ensureUser`: `if (!users.has(id)) users.set(id, { credits: FREE_CREDITS })`. -/
def ensureUser (freeCredits : Int) (users : Users) (id : String) : Users :=
  if hasUser users id then users else users ++ [(id, freeCredits)]

/-- Read a user's credit balance. -/
def getCredits (users : Users) (id : String) : Int :=
  ((users.find? (fun p => p.1 = id)).map Prod.snd).getD 0

/-- Write a user's credit balance (mutating the record held in the map). -/
def setCredits (users : Users) (id : String) (c : Int) : Users :=
  users.map (fun p => if p.1 = id then (p.1, c) else p)

/-- The response of `POST /api/run`: HTTP 402 `{ error: "Low credits" }`,
or `{ id, status: "running" }`. -/
inductive RunResp where
  | low
  | started (id : String)
  deriving DecidableEq

/-- `POST /api/run`: ensure the user, check `u.credits < START_COST`
(25), deduct, register the run and spawn the background task.  The
returned `runs` map holds the record as finalised by the completed
background task; the task never touches `users`, so the post-completion
balance is exactly the balance after the synchronous deduction. -/
def apiRunRoute (env : Env) (freeCredits : Int) (users : Users)
    (runsMap : List (String × RunRecord)) (userId runId : String) (flow : Flow) :
    Users × List (String × RunRecord) × RunResp :=
  let users1 := ensureUser freeCredits users userId
  let c := getCredits users1 userId
  if c < 25 then (users1, runsMap, RunResp.low)
  else
    let users2 := setCredits users1 userId (c - 25)
    let finalRec := apiRunTask env runId flow initRecord
    (users2, runsMap ++ [(runId, finalRec)], RunResp.started runId)

/-! ### `forwardLastEmail` (`src/unnamed/part_007` lines 175–212) -/

/-- An IMAP message as `fetchOne` returns it: `envelope.subject` and the
raw `source` (either may be absent). -/
structure Msg where
  subject : Option String
  source : Option String
  deriving DecidableEq

/-- The mail handed to `transporter.sendMail` by `forwardLastEmail`. -/
structure Fwd where
  fromA : String
  toAddr : Option String
  subject : String
  textBody : String
  deriving DecidableEq

/-- `forwardLastEmail(to)`: fail when the Gmail credentials are unset or
empty; fail with `No messages in INBOX` when the mailbox is empty;
otherwise fetch the message whose sequence number is `box.exists` (the
mailbox size, i.e. the last entry of the sequence-ordered mailbox) and
send its raw source, truncated to the first 100000 characters behind a
fixed header line.  The IMAP/SMTP transports themselves are external;
`mailbox` is the sequence-ordered INBOX content they would serve. -/
def forwardLastEmail (user pwd : Option String) (mailbox : List Msg) (toAddr : Option String) :
    Except String Fwd :=
  if !jsTruthy user || !jsTruthy pwd then
    .error "GMAIL_USER or GMAIL_APP_PASSWORD not set"
  else
    match mailbox.getLast? with
    | none => .error "No messages in INBOX"
    | some msg =>
        let subj := jsOrS msg.subject "(no subject)"
        let raw := jsOrS msg.source ""
        .ok { fromA := jsOrS user ""
              toAddr := toAddr
              subject := "Fwd: " ++ subj
              textBody := "Forwarded message (raw below):\n\n" ++
                String.mk (raw.toList.take 100000) }

/-! ### The `/api/plan` Gmail short-circuit (`src/unnamed/part_007` lines 40–48) -/

/-- The keyword predicate of the short-circuit:
`/gmail|email/i.test(text) && /forward/i.test(text)`. -/
def gmailKeywords (text : String) : Bool :=
  (containsCI text "gmail" || containsCI text "email") && containsCI text "forward"

/-- The Gmail short-circuit of `POST /api/plan`.  `matches` stands for
`text.match(/[A-Z0-9._%+-]+@[A-Z0-9.-]+\.[A-Z]{2,}/gi) || []`, the list
of email-like substrings the regex library extracts from `text` (in text
order); the exclusion logic itself is modelled exactly: the destination is
the first match whose lowercasing differs from the lowercased
`GMAIL_USER`, and the single-step flow is returned only when the keyword
test passes and a destination was found.  `none` means the route falls
through to the planner oracle. -/
def apiPlanShortCircuit (gmailUserEnv : Option String) (text : String)
    (ms : List String) : Option Flow :=
  let gmailUser := jsToLower (jsOrS gmailUserEnv "")
  let dest := ms.find? (fun e => jsToLower e ≠ gmailUser)
  if gmailKeywords text then
    match dest with
    | some d => some { startUrl := none, steps := [BAction.gmailForwardLast (some d)] }
    | none => none
  else none

end P007

namespace Rx

/-! ## Character-level models of the source's regular expressions

The planners match fixed regular expressions against the prompt.  Each
pattern is small enough to model directly as a scanner over the character
list, reproducing the JavaScript engine's leftmost-first semantics (scan
start positions left to right; at a position, greedy repetition with the
noted exact-munch arguments).  `\b`, `\w`, `\s`, `\d` follow their ASCII
JavaScript definitions. -/

/-- JavaScript `\w`: `[A-Za-z0-9_]`. -/
def isWordChar (c : Char) : Bool := c.isAlphanum || c = '_'

/-- Word-character test for the character left/right of a position
(`none` at the ends of the string). -/
def isWordOpt : Option Char → Bool
  | none => false
  | some c => isWordChar c

/-- Does one of the literal words `ws` start here, with a `\b` after it
(all alternatives end in a word character, so the boundary is "next
character is not a word character")? -/
def wordHereOk (ws : List (List Char)) (l : List Char) : Bool :=
  ws.any (fun w => w.isPrefixOf l && !isWordOpt ((l.drop w.length).head?))

/-- Test `/\b(ws…)\b/` on `l` (every alternative starts and ends with a
word character, so the leading boundary is "previous character is not a
word character"). -/
def hasWordAlt (ws : List (List Char)) : Option Char → List Char → Bool
  | _, [] => false
  | prev, c :: rest =>
      ((!isWordOpt prev) && wordHereOk ws (c :: rest))
      || hasWordAlt ws (some c) rest

/-- After a first word has matched, test `.*\b(ws…)\b/`: scan forward for
a boundary match of one of `ws`, where the gap consumed by `.*` may not
contain a newline (JavaScript `.` excludes line terminators). -/
def gapThenWord (ws : List (List Char)) : Option Char → List Char → Bool
  | _, [] => false
  | prev, c :: rest =>
      ((!isWordOpt prev) && wordHereOk ws (c :: rest))
      || (c ≠ '\n' && gapThenWord ws (some c) rest)

/-- Test `/\b(w1s…)\b.*\b(w2s…)\b/`. -/
def seqWordScan (w1s w2s : List (List Char)) : Option Char → List Char → Bool
  | _, [] => false
  | prev, c :: rest =>
      ((!isWordOpt prev) && w1s.any (fun w =>
        w.isPrefixOf (c :: rest) &&
        (let rem := (c :: rest).drop w.length
         !isWordOpt rem.head? && gapThenWord w2s w.getLast? rem)))
      || seqWordScan w1s w2s (some c) rest

/-- Lower-cased character list of a string, for `/…/i` tests. -/
def lcList (s : String) : List Char := (jsToLower s).data

/-- Case-insensitive literal prefix test (`w` given lower-case). -/
def ciPrefix (w : List Char) (l : List Char) : Bool :=
  w.isPrefixOf ((l.take w.length).map Char.toLower)

/-- URL-body character of `/https?:\/\/[^\s)]+/i`. -/
def urlTailChar (c : Char) : Bool := !(c.isWhitespace || c = ')')

/-- Match `https?:\/\/⟨tail⟩+` at the start of `l`, `tailOk` being the
body character class; returns the matched characters.  `https?` is
greedy, but after a failed `https://` the `http` + empty-`s?` alternative
needs a literal `:` where `l` has `s`, so each prefix is decided
directly; the body `+` is an exact maximal munch (its class excludes the
characters that may follow). -/
def urlAt (tailOk : Char → Bool) (l : List Char) : Option (List Char) :=
  if ciPrefix "https://".toList l then
    let tail := (l.drop 8).takeWhile tailOk
    if tail ≠ [] then some (l.take 8 ++ tail) else none
  else if ciPrefix "http://".toList l then
    let tail := (l.drop 7).takeWhile tailOk
    if tail ≠ [] then some (l.take 7 ++ tail) else none
  else none

/-- First match of `/https?:\/\/[^\s)]+/i` (the original-case characters,
as `String.match` returns them). -/
def urlScan : List Char → Option (List Char)
  | [] => none
  | c :: rest =>
      match urlAt urlTailChar (c :: rest) with
      | some m => some m
      | none => urlScan rest

/-- `urlFromText` of `src/unnamed/part_012`:
`(String(t).match(/https?:\/\/[^\s)]+/i) || [null])[0]`. -/
def urlFromText (t : String) : Option String :=
  (urlScan t.toList).map fun cs => String.mk cs

/-- The local-part class `[A-Za-z0-9._%+-]` of the email pattern. -/
def isACh (c : Char) : Bool :=
  c.isAlphanum || c = '.' || c = '_' || c = '%' || c = '+' || c = '-'

/-- The domain class `[A-Za-z0-9.-]` of the email pattern. -/
def isBCh (c : Char) : Bool := c.isAlphanum || c = '.' || c = '-'

/-- Backtracking of `[A-Za-z0-9.-]+\.[A-Za-z]{2,}\b` over the maximal
domain-class run `bs`: the greedy `+` tries the latest feasible dot
first, so dot positions are tried in descending order (the argument is
the candidate dot index); `{2,}`'s own backtracking cannot help, because
shortening the letter run puts a letter (a word character) after it,
violating the trailing `\b`.  `afterH` is the character following the
run.  Returns the number of characters matched after the `@`. -/
def emailTail (bs : List Char) (afterH : Option Char) : Nat → Option Nat
  | 0 => none
  | k + 1 =>
      let here : Option Nat :=
        if bs[k + 1]? = some '.' then
          let letters := (bs.drop (k + 2)).takeWhile Char.isAlpha
          let nxt := match (bs.drop (k + 2 + letters.length)).head? with
            | some c => some c
            | none => afterH
          if letters.length ≥ 2 && !isWordOpt nxt then
            some (k + 2 + letters.length)
          else none
        else none
      match here with
      | some v => some v
      | none => emailTail bs afterH k

/-- Match `/\b[A-Za-z0-9._%+-]+@[A-Za-z0-9.-]+\.[A-Za-z]{2,}\b/` at the
start of `l` (previous character `prev`); returns the matched length.
The local-part `+` is an exact maximal munch (`@` is outside its class);
the leading `\b` is the word/non-word transition test. -/
def emailAt (prev : Option Char) (l : List Char) : Option Nat :=
  match l.head? with
  | none => none
  | some c =>
      if isWordOpt prev = isWordChar c then none
      else if !isACh c then none
      else
        let aRun := l.takeWhile isACh
        let rest1 := l.drop aRun.length
        match rest1.head? with
        | some '@' =>
            let rest2 := rest1.drop 1
            let bs := rest2.takeWhile isBCh
            let afterH := (rest2.drop bs.length).head?
            match emailTail bs afterH (bs.length - 1) with
            | some tailLen => some (aRun.length + 1 + tailLen)
            | none => none
        | _ => none

/-- Leftmost email match: scan start positions left to right. -/
def emailScan : Option Char → List Char → Option (List Char)
  | _, [] => none
  | prev, c :: rest =>
      match emailAt prev (c :: rest) with
      | some len => some ((c :: rest).take len)
      | none => emailScan (some c) rest

/-- `emailFromText` of `src/unnamed/part_012`: first match of the
bounded email pattern. -/
def emailFromText (t : String) : Option String :=
  (emailScan none t.toList).map fun cs => String.mk cs

/-- Numeric value of a digit run (`parseInt(m[1], 10)`). -/
def digitsVal (ds : List Char) : Nat :=
  ds.foldl (fun n c => n * 10 + (c.toNat - 48)) 0

/-- First match of `/\b(\d{1,2})\b/`: a maximal digit run of length one
or two delimited by non-word characters (a longer run fails `\b` at
every interior split, and interior start positions fail the leading
`\b`). -/
def countScan : Option Char → List Char → Option Nat
  | _, [] => none
  | prev, c :: rest =>
      let here : Option Nat :=
        if (!isWordOpt prev) && c.isDigit then
          let ds := (c :: rest).takeWhile Char.isDigit
          let nxt := ((c :: rest).drop ds.length).head?
          if ds.length ≤ 2 && !isWordOpt nxt then some (digitsVal ds) else none
        else none
      match here with
      | some v => some v
      | none => countScan (some c) rest

end Rx

namespace P012

/-! ## P012: the synchronous `/plan` + `/run` service
(first half of `src/unnamed/part_012`) -/

/-- `needsScreenshot`: `/\bscreenshot\b/i.test(t)`. -/
def needsScreenshot (t : String) : Bool :=
  Rx.hasWordAlt ["screenshot".toList] none (Rx.lcList t)

/-- `needsLinks`: `/\b(get|latest)\b.*\blinks?\b/i.test(t) ||
/\bextract links?\b/i.test(t)`. -/
def needsLinks (t : String) : Bool :=
  Rx.seqWordScan ["get".toList, "latest".toList] ["links".toList, "link".toList]
    none (Rx.lcList t)
  || Rx.hasWordAlt ["extract links".toList, "extract link".toList] none (Rx.lcList t)

/-- `needsImage`: `/\b(create|generate|make)\b.*\b(image|picture|photo|art)\b/i.test(t)`. -/
def needsImage (t : String) : Bool :=
  Rx.seqWordScan ["create".toList, "generate".toList, "make".toList]
    ["image".toList, "picture".toList, "photo".toList, "art".toList]
    none (Rx.lcList t)

/-- A step of the plans `planFromPrompt` builds. -/
inductive PStep where
  | generateImage (prompt : String)
  | gmailSendLast (toAddr : String)
  | screenshotUrl (url : String)
  | extractStep (url : String) (count : Int)
  | gmailSendText (toAddr : String)
  deriving DecidableEq

/-- The `/plan` response.  A heuristic hit is `{ ok: true, plan, steps }`
(the `plan` summary object is abbreviated to its `kind` tag); the
unmatched case is `{ ok: false, error }`, which carries *no* `steps`
field at all (modelled as `none`). -/
structure PlanResp where
  ok : Bool
  error : Option String
  kind : Option String
  steps : Option (List PStep)
  deriving DecidableEq

/-- `planFromPrompt` (`src/unnamed/part_012` lines 140–167): ordered
heuristics — image, screenshot + URL, links + URL, bare URL — and an
`ok: false` error object when no URL and no image task is detected. -/
def planFromPrompt (prompt : String) : PlanResp :=
  let toA := Rx.emailFromText prompt
  let url := Rx.urlFromText prompt
  if needsImage prompt then
    { ok := true, error := none, kind := some "image",
      steps := some ([PStep.generateImage prompt] ++
        (match toA with | some t => [PStep.gmailSendLast t] | none => [])) }
  else
    match url with
    | some u =>
        if needsScreenshot prompt then
          { ok := true, error := none, kind := some "screenshot",
            steps := some ([PStep.screenshotUrl u] ++
              (match toA with | some t => [PStep.gmailSendLast t] | none => [])) }
        else if needsLinks prompt then
          let count : Int := match Rx.countScan none prompt.toList with
            | some n => max 1 (min 20 (Int.ofNat n))
            | none => 5
          { ok := true, error := none, kind := some "links",
            steps := some ([PStep.extractStep u count] ++
              (match toA with | some t => [PStep.gmailSendText t] | none => [])) }
        else
          { ok := true, error := none, kind := some "screenshot",
            steps := some ([PStep.screenshotUrl u] ++
              (match toA with | some t => [PStep.gmailSendLast t] | none => [])) }
    | none =>
        { ok := false,
          error := some "Couldn’t detect a URL or an image/link task in the prompt.",
          kind := none, steps := none }

/-- An anchor as the `extractLinks` page script reports it: `{ title:
(a.textContent || "").trim(), href: a.href }`. -/
structure JLink where
  title : String
  href : String
  deriving DecidableEq

/-- `extractLinks(url, count)` (lines 99–110), given the page's anchors
as `(textContent, href)` pairs (the browser's DOM enumeration is the
external part): trim titles, keep anchors with truthy `href` and
`title`, and truncate with `slice(0, Math.max(1, Math.min(20, count)))`. -/
def extractLinks (ancs : List (String × String)) (count : Int) : List JLink :=
  let links := (ancs.map fun a => JLink.mk (jsTrim a.1) a.2).filter
    fun x => x.href ≠ "" && x.title ≠ ""
  links.take (max 1 (min 20 count)).toNat

/-- `newestFileIn(dir)`: the directory listing as `(name, mtimeMs)` pairs
in `readdir` order; the source stable-sorts by `mtimeMs` descending and
takes the head, i.e. the first-listed entry of maximal mtime. -/
def newestFileIn (dir : List (String × Int)) : Option String :=
  match dir with
  | [] => none
  | x :: xs => some ((xs.foldl (fun best y => if y.2 > best.2 then y else best) x).1)

/-- A step of `POST /run` as the `switch (step.action)` reads it. -/
inductive SAction where
  | screenshotUrl (url : Option String)
  | generateImage (prompt : Option String)
  | extractStep (url : Option String) (count : Option Int)
  | gmailSendLast (toAddr : Option String)
  | gmailSendText (toAddr : Option String) (textF : Option String)
  | other (tag : String)
  deriving DecidableEq

/-- An entry of the `results` array. -/
inductive Res where
  | shot (path : String)
  | image (path : String)
  | links (ls : List JLink)
  | sentLast (toAddr : Option String)
  | sentText (toAddr : Option String)
  deriving DecidableEq

/-- A mail handed to `sendEmail`. -/
structure SentM where
  toAddr : Option String
  subject : String
  textBody : String
  attachment : Option String
  deriving DecidableEq

/-- External outcomes for `POST /run`: `shot url` is `screenshotURL`
(returning the written file's name and mtime), `image` is
`generateImage`, `anchors url` the page's anchor list for
`extractLinks`, `send` the `sendEmail` transport (it throws when
`GMAIL_USER`/`GMAIL_APP_PASSWORD` are unset), and `runsDir0` the
`RUNS_DIR` listing at run start — the directory is shared by *all* runs
of the process, so it may already contain files written by other runs. -/
structure Env where
  shot : Option String → Except String (String × Int)
  image : Option String → Except String (String × Int)
  anchors : Option String → Except String (List (String × String))
  send : SentM → Except String Unit
  runsDir0 : List (String × Int)

/-- The mutable state of one `POST /run` request: the `results` array,
the evolving shared `RUNS_DIR` listing, and (as a ghost observation) the
mails actually handed to the transport. -/
structure St where
  results : List Res
  dir : List (String × Int)
  sent : List SentM
  deriving DecidableEq

/-- `results.find(r => r.links)`: the first extract-links result (an
array field is truthy even when empty). -/
def firstLinks : List Res → Option (List JLink)
  | [] => none
  | Res.links ls :: _ => some ls
  | _ :: rest => firstLinks rest

/-- `linkStep.links.map((l, i) => ...).join("\n\n")`. -/
def formatLinks (ls : List JLink) : String :=
  String.intercalate "\n\n"
    (ls.enum.map fun p => toString (p.1 + 1) ++ ". " ++ p.2.title ++ "\n" ++ p.2.href)

/-- One `switch (step.action)` arm of `POST /run`; `.error m` models a
thrown exception (caught at the request boundary).  The `default` arm
throws `Unknown action: <tag>`. -/
def step012 (env : Env) (s : SAction) (st : St) : Except String St :=
  match s with
  | .screenshotUrl u =>
      match env.shot u with
      | .error m => .error m
      | .ok nt =>
          .ok { st with results := st.results ++ [Res.shot ("/runs/" ++ nt.1)],
                        dir := st.dir ++ [nt] }
  | .generateImage p =>
      match env.image p with
      | .error m => .error m
      | .ok nt =>
          .ok { st with results := st.results ++ [Res.image ("/runs/" ++ nt.1)],
                        dir := st.dir ++ [nt] }
  | .extractStep u c =>
      match env.anchors u with
      | .error m => .error m
      | .ok ancs =>
          .ok { st with results := st.results ++ [Res.links (extractLinks ancs (jsOrI c 5))] }
  | .gmailSendLast toA =>
      match newestFileIn st.dir with
      | none => .error "Nothing to send yet."
      | some f =>
          let mail : SentM :=
            { toAddr := toA, subject := "Mediad AutoDirector – file",
              textBody := "Attached is the latest file.", attachment := some f }
          match env.send mail with
          | .error m => .error m
          | .ok _ => .ok { st with results := st.results ++ [Res.sentLast toA],
                                   sent := st.sent ++ [mail] }
  | .gmailSendText toA txt =>
      let text := match firstLinks st.results with
        | some ls => formatLinks ls
        | none => jsOrS txt "No content."
      let mail : SentM :=
        { toAddr := toA, subject := "Mediad AutoDirector – links",
          textBody := text, attachment := none }
      match env.send mail with
      | .error m => .error m
      | .ok _ => .ok { st with results := st.results ++ [Res.sentText toA],
                               sent := st.sent ++ [mail] }
  | .other tag => .error ("Unknown action: " ++ tag)

/-- The `for (const step of steps)` loop. -/
def loop012 (env : Env) : List SAction → St → Except String St
  | [], st => .ok st
  | s :: rest, st =>
      match step012 env s st with
      | .ok st' => loop012 env rest st'
      | .error m => .error m

/-- The state at request start. -/
def init012 (env : Env) : St := ⟨[], env.runsDir0, []⟩

/-- The `POST /run` response: `{ ok: true, results }` or
`{ ok: false, error }`. -/
inductive RunOut where
  | ok (results : List Res)
  | err (msg : String)
  deriving DecidableEq

/-- `POST /run` (lines 222–288), after step extraction: reject an empty
step list, then run the loop inside `try`/`catch`. -/
def run012 (env : Env) (steps : List SAction) : RunOut :=
  if steps.isEmpty then RunOut.err "No steps provided"
  else
    match loop012 env steps (init012 env) with
    | .ok st => RunOut.ok st.results
    | .error m => RunOut.err m

end P012

namespace P003

/-! ## P003: the minimal `/plan` + `/run` backend (`src/unnamed/part_003`) -/

/-- The address class `[^\s,;]` of `parsePrompt`'s capture groups. -/
def isDCh (c : Char) : Bool := !(c.isWhitespace || c = ',' || c = ';')

/-- Does a `[^\s,;]+@[^\s,;]+` capture succeed on the maximal
`[^\s,;]`-run starting here?  The greedy halves backtrack to any split at
an `@` with at least one run character on each side, and together they
always consume the whole run, so the capture is the run itself exactly
when the run has an interior `@`. -/
def innerAt (run : List Char) : Bool := ((run.drop 1).dropLast).contains '@'

/-- First match of `/\bto\s+([^\s,;]+@[^\s,;]+)/i`, returning the
capture. -/
def toScan : Option Char → List Char → Option (List Char)
  | _, [] => none
  | prev, c :: rest =>
      let here : Option (List Char) :=
        if (!Rx.isWordOpt prev) && Rx.ciPrefix "to".toList (c :: rest) then
          let afterW := (c :: rest).drop 2
          let ws := afterW.takeWhile Char.isWhitespace
          if ws ≠ [] then
            let run := (afterW.drop ws.length).takeWhile isDCh
            if innerAt run then some run else none
          else none
        else none
      match here with
      | some v => some v
      | none => toScan (some c) rest

/-- `p.match(/\bto\s+([^\s,;]+@[^\s,;]+)/i)`'s capture. -/
def mTo (p : String) : Option String := (toScan none p.toList).map fun cs => String.mk cs

/-- First match of `/screenshot\s+(https?:\/\/\S+)/i`, returning the URL
capture (the pattern has no word boundaries). -/
def shotScan : List Char → Option (List Char)
  | [] => none
  | c :: rest =>
      let here : Option (List Char) :=
        if Rx.ciPrefix "screenshot".toList (c :: rest) then
          let afterW := (c :: rest).drop 10
          let ws := afterW.takeWhile Char.isWhitespace
          if ws ≠ [] then Rx.urlAt (fun ch => !ch.isWhitespace) (afterW.drop ws.length)
          else none
        else none
      match here with
      | some v => some v
      | none => shotScan rest

/-- `p.match(/screenshot\s+(https?:\/\/\S+)/i)`'s capture. -/
def mShot (p : String) : Option String := (shotScan p.toList).map fun cs => String.mk cs

/-- First match of `/save\s+(https?:\/\/\S+)\s+as\s+pdf/i`, returning
the URL capture.  Every greedy piece is an exact maximal munch (the
classes of adjacent pieces are disjoint). -/
def pdfScan : List Char → Option (List Char)
  | [] => none
  | c :: rest =>
      let here : Option (List Char) :=
        if Rx.ciPrefix "save".toList (c :: rest) then
          let a1 := (c :: rest).drop 4
          let ws1 := a1.takeWhile Char.isWhitespace
          if ws1 ≠ [] then
            match Rx.urlAt (fun ch => !ch.isWhitespace) (a1.drop ws1.length) with
            | none => none
            | some url =>
                let a2 := (a1.drop ws1.length).drop url.length
                let ws2 := a2.takeWhile Char.isWhitespace
                if ws2 ≠ [] && Rx.ciPrefix "as".toList (a2.drop ws2.length) then
                  let a3 := (a2.drop ws2.length).drop 2
                  let ws3 := a3.takeWhile Char.isWhitespace
                  if ws3 ≠ [] && Rx.ciPrefix "pdf".toList (a3.drop ws3.length) then some url
                  else none
                else none
          else none
        else none
      match here with
      | some v => some v
      | none => pdfScan rest

/-- `p.match(/save\s+(https?:\/\/\S+)\s+as\s+pdf/i)`'s capture. -/
def mPdf (p : String) : Option String := (pdfScan p.toList).map fun cs => String.mk cs

/-- First match of
`/forward my last\s+(\d+)\s+emails\s+to\s+([^\s,;]+@[^\s,;]+)/i`,
returning both captures (the digit run as written, and the address). -/
def fwdScan : List Char → Option (List Char × List Char)
  | [] => none
  | c :: rest =>
      let here : Option (List Char × List Char) :=
        if Rx.ciPrefix "forward my last".toList (c :: rest) then
          let a1 := (c :: rest).drop 15
          let ws1 := a1.takeWhile Char.isWhitespace
          let a2 := a1.drop ws1.length
          let ds := a2.takeWhile Char.isDigit
          if ws1 ≠ [] && ds ≠ [] then
            let a3 := a2.drop ds.length
            let ws2 := a3.takeWhile Char.isWhitespace
            let a4 := a3.drop ws2.length
            if ws2 ≠ [] && Rx.ciPrefix "emails".toList a4 then
              let a5 := a4.drop 6
              let ws3 := a5.takeWhile Char.isWhitespace
              let a6 := a5.drop ws3.length
              if ws3 ≠ [] && Rx.ciPrefix "to".toList a6 then
                let a7 := a6.drop 2
                let ws4 := a7.takeWhile Char.isWhitespace
                let run := (a7.drop ws4.length).takeWhile isDCh
                if ws4 ≠ [] && innerAt run then some (ds, run) else none
              else none
            else none
          else none
        else none
      match here with
      | some v => some v
      | none => fwdScan rest

/-- Both captures of the forward pattern. -/
def mFwd (p : String) : Option (List Char × List Char) := fwdScan p.toList

/-- A step of the part_003 plans. -/
inductive P3Step where
  | screenshotUrl (url : String) (toAddr : Option String)
  | pdfUrl (url : String) (toAddr : Option String)
  | gmailForwardLast (count : Nat) (toAddr : String)
  | noop (note : String)
  deriving DecidableEq

/-- A part_003 plan: `{ steps, summary }`. -/
structure P3Plan where
  steps : List P3Step
  summary : String
  deriving DecidableEq

/-- `parsePrompt` (`src/unnamed/part_003` lines 33–72): three ordered
matchers, and on no match the explicit one-element `noop` plan (not an
empty step list). -/
def parsePrompt (prompt : String) : P3Plan :=
  let p := jsTrim prompt
  match mShot p with
  | some url =>
      let toA := mTo p
      { steps := [P3Step.screenshotUrl url toA],
        summary := "Take screenshot of " ++ url ++
          (match toA with | some t => " and email to " ++ t | none => "") ++ "." }
  | none =>
  match mPdf p with
  | some url =>
      let toA := mTo p
      { steps := [P3Step.pdfUrl url toA],
        summary := "Save " ++ url ++ " as PDF" ++
          (match toA with | some t => " and email to " ++ t | none => "") ++ "." }
  | none =>
  match mFwd p with
  | some cap =>
      { steps := [P3Step.gmailForwardLast (Rx.digitsVal cap.1) (String.mk cap.2)],
        summary := "Forward last " ++ String.mk cap.1 ++ " emails to " ++ String.mk cap.2 ++ "." }
  | none =>
      { steps := [P3Step.noop "Could not understand prompt. Try: \x27Screenshot https://example.com and email to …\x27"],
        summary := "Unrecognized prompt" }

end P003

namespace P006

/-! ## P006: the `topLinks` pipeline (`src/unnamed/part_006` lines 536–607) -/

/-- An anchor as the page script sees it: `href` is
`toAbs(a.getAttribute("href"))` — the browser's absolute-URL resolution,
`none` when the `URL` constructor threw — and `text` is the `bestText`
DOM heuristic's result.  Both computations run inside the browser and
are external. -/
structure Anchor where
  href : Option String
  text : String
  deriving DecidableEq

/-- An entry of the extracted list: `{ text, href }`. -/
structure LinkT where
  text : String
  href : String
  deriving DecidableEq

/-- A character allowed in a URL scheme after its leading letter
(WHATWG: ASCII alphanumeric, `+`, `-`, `.`). -/
def schemeChar (c : Char) : Bool := c.isAlphanum || c = '+' || c = '-' || c = '.'

/-- Does the string parse as a URL (`new URL(u)` does not throw):
a scheme — a letter followed by scheme characters — terminated by `:`. -/
def hasScheme (l : List Char) : Bool :=
  match l.head? with
  | none => false
  | some c => c.isAlpha && (l.drop (l.takeWhile schemeChar).length).head? = some ':'

/-- The `normalize` of the page script: `try { const url = new URL(u);
url.hash = ""; url.search = ""; return url.toString(); } catch { return
u; }`.  A parseable URL serialises, after clearing fragment and query, to
its characters before the first `#` and, within those, before the first
`?` (a `?` occurring after the `#` belongs to the fragment); WHATWG
re-serialisation of the remaining components is modelled as the identity,
which is exact on already-serialised `a.href` values.  An unparseable
string is returned unchanged. -/
def normalize (u : String) : String :=
  if hasScheme u.toList then
    String.mk ((u.toList.takeWhile fun c => c ≠ '#').takeWhile fun c => c ≠ '?')
  else u

/-- The junk filter
`/(facebook|twitter|instagram|linkedin|pinterest|privacy|terms|subscribe|login)/i.test(href)`. -/
def junkTest (h : String) : Bool :=
  ["facebook", "twitter", "instagram", "linkedin", "pinterest",
   "privacy", "terms", "subscribe", "login"].any fun w => containsCI h w

/-- The `raw` collection loop: resolve, then skip unresolvable hrefs,
`javascript:` links, bare or trailing `#` targets, anchors with no
usable text, and junk-pattern hrefs. -/
def rawLinks (ancs : List Anchor) : List LinkT :=
  ancs.filterMap fun a =>
    match a.href with
    | none => none
    | some h =>
        if strStarts h "javascript:" then none
        else if h = "#" || strEnds h "#" then none
        else if a.text = "" then none
        else if junkTest h then none
        else some ⟨a.text, h⟩

/-- The de-duplication loop: keep the first entry for each normalised
key (`seen` is the set of keys already kept). -/
def dedupeLinks : List LinkT → List String → List LinkT
  | [], _ => []
  | r :: rest, seen =>
      let key := normalize r.href
      if seen.contains key then dedupeLinks rest seen
      else r :: dedupeLinks rest (key :: seen)

/-- The comparator `(b.text.length - a.text.length) || (b.href.length -
a.href.length)` as a total "comes first or ties" relation: `a` may stay
before `b` exactly when the comparator is non-positive. -/
def rankLe (a b : LinkT) : Bool :=
  if a.text.length = b.text.length then b.href.length ≤ a.href.length
  else b.text.length < a.text.length

/-- Insert into a ranked list, before the first entry it ranks
less-or-tied with (ties keep input order). -/
def insertRanked (x : LinkT) : List LinkT → List LinkT
  | [] => [x]
  | y :: ys => if rankLe x y then x :: y :: ys else y :: insertRanked x ys

/-- The engine's stable `Array.sort` under the comparator: for the total
preorder `rankLe` the stable-sorted permutation is unique, and this
insertion sort computes it (an element is placed before exactly the
entries that rank strictly after it, ties keeping input order). -/
def sortRanked : List LinkT → List LinkT
  | [] => []
  | x :: xs => insertRanked x (sortRanked xs)

/-- `topLinks(url, limit)`: the collected, de-duplicated, ranked anchor
list truncated with `slice(0, limit)` (the callers pass the non-negative
count `plan.count || 3`), and the one-element fallback `[{ text: url,
href: url }]` when nothing survived. -/
def topLinks (ancs : List Anchor) (url : String) (limit : Nat) : List LinkT :=
  let unique := dedupeLinks (rawLinks ancs) []
  let sorted := sortRanked unique
  let picked := sorted.take limit
  if picked.length > 0 then picked else [⟨url, url⟩]

end P006

namespace P013

/-! ## P013: the `/run` executor with per-run state (`src/unnamed/part_013`) -/

/-- A step of `POST /run` as the dispatch chain reads it. -/
inductive A13 where
  | screenshotUrl (url : Option String)
  | gmailSendLast (toAddr : Option String) (attachmentPath : Option String)
  | extractStep (url : Option String) (count : Option Int)
  | gmailSendText (toAddr : Option String) (textF : Option String)
  | createImage (prompt : Option String)
  | other (tag : String)
  deriving DecidableEq

/-- An entry of the `results` array. -/
inductive Res13 where
  | shot (path : String)
  | sentLast (toAddr : String)
  | links (ls : List String)
  | sentText (toAddr : String)
  | image (path : String)
  deriving DecidableEq

/-- A mail handed to `transport.sendMail`. -/
structure Sent13 where
  toAddr : String
  subject : String
  textBody : String
  attachment : Option String
  deriving DecidableEq

/-- External outcomes: `shot`/`image` return the written file's
`(filepath, filename)`; `anchorHrefs` is the page's `a[href]` list for
`extractLinks`; `creds` is `GMAIL_USER` when both Gmail variables are
set (`mailer()` throws otherwise); `smtp` the transport outcome. -/
structure Env where
  shot : Option String → Except String (String × String)
  image : Option String → Except String (String × String)
  anchorHrefs : Option String → Except String (List String)
  creds : Option String
  smtp : Sent13 → Except String Unit

/-- `Array.from(new Set(out))`: first occurrence kept, insertion order. -/
def dedupSet : List String → List String → List String
  | [], _ => []
  | x :: rest, seen =>
      if seen.contains x then dedupSet rest seen else x :: dedupSet rest (x :: seen)

/-- `extractLinks(url, count)` of part_013, given the page's raw hrefs:
trim, keep the ones starting with `http`, de-duplicate, `slice(0,
count)` (callers pass a non-negative count). -/
def extractLinks13 (hrefs : List String) (count : Int) : List String :=
  let out := (hrefs.map jsTrim).filter fun u => strStarts u "http"
  (dedupSet out []).take count.toNat

/-- `sendEmailWithAttachment({to, subject, text, attachmentPath})`:
throws when the Gmail credentials are missing; otherwise mails
`to || user`.  Returns the mail it handed to the transport. -/
def sendEmailWithAttachment (env : Env) (toA : Option String) (subject text : String)
    (attachmentPath : Option String) : Except String Sent13 :=
  match env.creds with
  | none => .error "Missing GMAIL_USER or GMAIL_APP_PASSWORD env vars (needed for email)."
  | some user =>
      let mail : Sent13 := { toAddr := jsOrS toA user, subject := subject,
                             textBody := text, attachment := attachmentPath }
      match env.smtp mail with
      | .error m => .error m
      | .ok _ => .ok mail

/-- The per-run mutable state: `const state = {}` carrying the last
produced file and the last extracted text between the steps of *this*
request, plus the `results` array and (as a ghost observation) the mails
sent. -/
structure St where
  lastFilePath : Option String
  textF : Option String
  results : List Res13
  sent : List Sent13
  deriving DecidableEq

/-- The state at request start (`const state = {}`). -/
def init13 : St := ⟨none, none, [], []⟩

/-- One dispatch arm of part_013's `POST /run` loop.  `gmail_send_last`
throws when neither an explicit `attachmentPath` nor a previously
produced file exists, and otherwise attaches `step.attachmentPath ||
state.lastFilePath`; the unknown tag throws `Unknown action: <tag>`. -/
def step13 (env : Env) (s : A13) (st : St) : Except String St :=
  match s with
  | .screenshotUrl u =>
      match env.shot u with
      | .error m => .error m
      | .ok fp =>
          .ok { st with lastFilePath := some fp.1,
                        results := st.results ++ [Res13.shot ("/runs/" ++ fp.2)] }
  | .gmailSendLast toA att =>
      if !jsTruthy st.lastFilePath && !jsTruthy att then
        .error "No attachment available to send."
      else
        let attPath := jsOrS att (jsOrS st.lastFilePath "")
        match sendEmailWithAttachment env toA "AutoDirector Result" "See attached file." (some attPath) with
        | .error m => .error m
        | .ok mail =>
            .ok { st with results := st.results ++ [Res13.sentLast mail.toAddr],
                          sent := st.sent ++ [mail] }
  | .extractStep u c =>
      match env.anchorHrefs u with
      | .error m => .error m
      | .ok hs =>
          let links := extractLinks13 hs (jsOrI c 3)
          .ok { st with textF := some (String.intercalate "\n" links),
                        results := st.results ++ [Res13.links links] }
  | .gmailSendText toA txt =>
      let text := jsOrS txt (jsOrS st.textF "(no text)")
      match sendEmailWithAttachment env toA "AutoDirector Links" text none with
      | .error m => .error m
      | .ok mail =>
          .ok { st with results := st.results ++ [Res13.sentText mail.toAddr],
                        sent := st.sent ++ [mail] }
  | .createImage p =>
      match env.image p with
      | .error m => .error m
      | .ok fp =>
          .ok { st with lastFilePath := some fp.1,
                        results := st.results ++ [Res13.image ("/runs/" ++ fp.2)] }
  | .other tag => .error ("Unknown action: " ++ tag)

/-- The `for (const step of steps)` loop of part_013. -/
def loop13 (env : Env) : List A13 → St → Except String St
  | [], st => .ok st
  | s :: rest, st =>
      match step13 env s st with
      | .ok st' => loop13 env rest st'
      | .error m => .error m

/-- The filepaths this run's own capture steps would produce (an
over-approximation of "artifacts created by the current run": every
successful `screenshot_url`/`create_image` outcome for the listed
steps). -/
def producedPaths (env : Env) : List A13 → List String
  | [] => []
  | A13.screenshotUrl u :: rest =>
      (match env.shot u with | .ok fp => [fp.1] | .error _ => []) ++ producedPaths env rest
  | A13.createImage p :: rest =>
      (match env.image p with | .ok fp => [fp.1] | .error _ => []) ++ producedPaths env rest
  | _ :: rest => producedPaths env rest

/-- The attachment paths the steps themselves carry (`step.attachmentPath`). -/
def stepAtts : List A13 → List String
  | [] => []
  | A13.gmailSendLast _ (some p) :: rest => p :: stepAtts rest
  | _ :: rest => stepAtts rest

end P013

namespace SpecJobs

/-! ## The Monitor sweep, modelled from the specification

The persisted-job subsystem (Job Store, Monitors, Scheduler Trigger) is
not present under `src/`; only the specification describes it.  The
definitions below are modelled from the specification text (§3, §4.4). -/

/-- Modelled from the spec: the `Monitor` persisted job,
`Monitor{url, notify_to, last_fingerprint}`; `last_fingerprint` is null
on creation.  (The Job Store holding these records is the missing code.) -/
structure Monitor where
  url : String
  notify_to : String
  last_fingerprint : Option String
  deriving DecidableEq

/-- Modelled from the spec: one Monitor sweep step of the Scheduler
Trigger (the missing sweep endpoint): fetch the URL's raw content
(`content`), compute a content fingerprint (`fingerprintOf`, the
cryptographic hash — both are capabilities of the missing code), compare
against `last_fingerprint`, notify exactly once if a prior fingerprint
existed and differs, and always update `last_fingerprint` to the fresh
value.  Returns the updated Monitor and the number of notifications
sent. -/
def sweepMonitor (fingerprintOf : String → String) (content : String → String)
    (m : Monitor) : Monitor × Nat :=
  let fp := fingerprintOf (content m.url)
  let notes := match m.last_fingerprint with
    | some old => if old ≠ fp then 1 else 0
    | none => 0
  ({ m with last_fingerprint := some fp }, notes)

end SpecJobs

/-! ## Concrete environments used by the closed witness theorems -/

/-- A P007 environment whose capabilities all succeed. -/
def trivEnv007 : P007.Env :=
  { cap := fun _ _ => .ok (), msgId := fun _ => "mid-1",
    startCap := fun _ => .ok (), video := none }

/-- A P007 environment whose step-1 capability throws `boom`. -/
def faultEnv007 : P007.Env :=
  { cap := fun i _ => if i = 1 then .error "boom" else .ok (),
    msgId := fun _ => "mid-1", startCap := fun _ => .ok (), video := none }

/-- A P007 environment whose step-0 capability throws `boom0`. -/
def faultEnv007zero : P007.Env :=
  { cap := fun i _ => if i = 0 then .error "boom0" else .ok (),
    msgId := fun _ => "mid-1", startCap := fun _ => .ok (), video := none }

/-- A P012 environment whose capabilities all succeed over an empty
`RUNS_DIR`. -/
def trivEnv012 : P012.Env :=
  { shot := fun _ => .ok ("s.png", 5), image := fun _ => .ok ("i.png", 6),
    anchors := fun _ => .ok [], send := fun _ => .ok (), runsDir0 := [] }

/-- The shared `RUNS_DIR` as this run alone would find it: only the file
`a.png` (written at time 1). -/
def dirEnvA : P012.Env := { trivEnv012 with runsDir0 := [("a.png", 1)] }

/-- The same `RUNS_DIR` after a concurrent run wrote `b.png` at the later
time 2. -/
def dirEnvB : P012.Env := { trivEnv012 with runsDir0 := [("a.png", 1), ("b.png", 2)] }

/-- A P012 environment whose screenshot capability throws. -/
def faultEnv012 : P012.Env := { trivEnv012 with shot := fun _ => .error "nav failed" }

/-- A P013 environment whose capabilities all succeed. -/
def trivEnv13 : P013.Env :=
  { shot := fun _ => .ok ("/srv/runs/f1.png", "f1.png"),
    image := fun _ => .ok ("/srv/runs/f2.png", "f2.png"),
    anchorHrefs := fun _ => .ok [], creds := some "svc@x.com",
    smtp := fun _ => .ok () }

/-! ## Helper lemmas -/

/-- Running a step list split as `pre ++ rest` runs `pre` first and
continues with `rest` (at the shifted index) only when `pre` raised no
fault. -/
theorem P007.execSteps_append (env : P007.Env) (id : String) (pre rest : List P007.BAction) :
    ∀ (i : Nat) (r : P007.RunRecord),
    P007.execSteps env id (pre ++ rest) i r =
      match P007.execSteps env id pre i r with
      | (r', none) => P007.execSteps env id rest (i + pre.length) r'
      | (r', some m) => (r', some m) := by
  induction pre with
  | nil => intro i r; simp [P007.execSteps]
  | cons a pre ih =>
      intro i r
      simp only [List.cons_append, P007.execSteps]
      cases hs : P007.execStep env id i a r with
      | mk r' o =>
        cases o with
        | none =>
            dsimp only
            simp only [List.append_eq]
            rw [ih (i + 1) r', List.length_cons,
              show i + 1 + pre.length = i + (pre.length + 1) from by omega]
        | some m => rfl

/-- The part_012 loop over `pre ++ rest` is the loop over `pre` followed,
on success, by the loop over `rest`. -/
theorem P012.loop012_append (env : P012.Env) (pre rest : List P012.SAction) :
    ∀ st, P012.loop012 env (pre ++ rest) st =
      match P012.loop012 env pre st with
      | .ok st' => P012.loop012 env rest st'
      | .error m => .error m := by
  induction pre with
  | nil => intro st; simp [P012.loop012]
  | cons s pre ih =>
      intro st
      simp only [List.cons_append, P012.loop012]
      cases P012.step012 env s st with
      | ok st' => exact ih st'
      | error m => rfl

/-- A user present in the map keeps exactly the written balance. -/
theorem P007.getCredits_setCredits (users : P007.Users) (uid : String) (v : Int)
    (h : P007.hasUser users uid = true) :
    P007.getCredits (P007.setCredits users uid v) uid = v := by
  induction users with
  | nil => simp [P007.hasUser] at h
  | cons p rest ih =>
      by_cases hp : p.1 = uid
      · simp [P007.getCredits, P007.setCredits, List.find?, hp]
      · have hrest : P007.hasUser rest uid = true := by
          simp [P007.hasUser] at h ⊢
          rcases h with h | h
          · exact absurd h hp
          · exact h
        have := ih hrest
        simp [P007.getCredits, P007.setCredits, List.find?, hp] at this ⊢
        exact this

/-- `ensureUser` leaves the user present. -/
theorem P007.hasUser_ensureUser (freeCredits : Int) (users : P007.Users) (uid : String) :
    P007.hasUser (P007.ensureUser freeCredits users uid) uid = true := by
  by_cases h : P007.hasUser users uid
  · simp [P007.ensureUser, h]
  · have hx : P007.hasUser (users ++ [(uid, freeCredits)]) uid = true := by
      refine List.any_eq_true.mpr ?_
      exact ⟨(uid, freeCredits), by simp, by simp⟩
    simpa [P007.ensureUser, h] using hx

/-! ## C10 — credit check of `POST /api/run` -/

/-- C10: every `POST /api/run` request from a caller whose credit balance
is below 25 is rejected with HTTP 402 (`Low credits`), creating no run
and leaving the balance unchanged; otherwise exactly 25 credits are
deducted synchronously — before the background task executes any step —
and the deduction is never refunded: the post-completion balance is
`c - 25` whatever the run's outcome (the balance does not depend on the
execution environment at all), in particular when the final status is
`error`. -/
theorem c10_credit_deduction (env : P007.Env) (freeCredits : Int) (users : P007.Users)
    (runsMap : List (String × P007.RunRecord)) (uid rid : String) (flow : P007.Flow) :
    (P007.getCredits (P007.ensureUser freeCredits users uid) uid < 25 →
      P007.apiRunRoute env freeCredits users runsMap uid rid flow =
        (P007.ensureUser freeCredits users uid, runsMap, P007.RunResp.low)) ∧
    (¬ P007.getCredits (P007.ensureUser freeCredits users uid) uid < 25 →
      P007.getCredits (P007.apiRunRoute env freeCredits users runsMap uid rid flow).1 uid =
        P007.getCredits (P007.ensureUser freeCredits users uid) uid - 25 ∧
      (P007.apiRunRoute env freeCredits users runsMap uid rid flow).2.1 =
        runsMap ++ [(rid, P007.apiRunTask env rid flow P007.initRecord)] ∧
      (P007.apiRunRoute env freeCredits users runsMap uid rid flow).2.2 =
        P007.RunResp.started rid ∧
      ∀ env' : P007.Env,
        (P007.apiRunRoute env' freeCredits users runsMap uid rid flow).1 =
          (P007.apiRunRoute env freeCredits users runsMap uid rid flow).1) := by
  constructor
  · intro h
    simp [P007.apiRunRoute, h]
  · intro h
    refine ⟨?_, ?_, ?_, ?_⟩
    · simp only [P007.apiRunRoute, if_neg h]
      exact P007.getCredits_setCredits _ _ _ (P007.hasUser_ensureUser freeCredits users uid)
    · simp [P007.apiRunRoute, h]
    · simp [P007.apiRunRoute, h]
    · intro env'
      simp [P007.apiRunRoute, h]

/-- Witness for C10: a caller with balance 10 is rejected with 402 and
keeps 10; a caller with balance 100 pays 25, and still holds 75 although
its run (whose only step's capability faults at index 0) finishes with
status `error`. -/
theorem c10_credit_deduction_witness :
    (P007.apiRunRoute trivEnv007 100 [("u", 10)] [] "u" "r1" ⟨none, []⟩ =
      ([("u", 10)], [], P007.RunResp.low)) ∧
    (P007.getCredits
      (P007.apiRunRoute faultEnv007zero 100 [("v", 100)] [] "v" "r2"
        ⟨none, [P007.BAction.click (some "#x")]⟩).1 "v" = 75 ∧
     (P007.apiRunTask faultEnv007zero "r2"
        ⟨none, [P007.BAction.click (some "#x")]⟩ P007.initRecord).status = "error") :=
  ⟨(c10_credit_deduction trivEnv007 100 [("u", 10)] [] "u" "r1" ⟨none, []⟩).1 (by decide),
   ⟨by
      have h2 := ((c10_credit_deduction faultEnv007zero 100 [("v", 100)] [] "v" "r2"
        ⟨none, [P007.BAction.click (some "#x")]⟩).2 (by decide)).1
      simpa using h2,
    by decide⟩⟩

/-! ## C5 — Monitor sweep change detection (modelled from the spec) -/

/-- C5: for every Monitor, a sweep notifies exactly when a prior
fingerprint existed and the freshly computed fingerprint differs from
it; every sweep updates `last_fingerprint` to the fresh value; hence the
first sweep after creation (`last_fingerprint` null) sends no
notification and only establishes the baseline, and a later sweep whose
content fingerprint differs from the baseline sends exactly one
notification.  (`hashF` is the content hash, `c1`/`c2` the fetched
content at the first/second sweep.) -/
theorem c5_monitor_sweep_baseline_then_diff
    (hashF : String → String) (c1 c2 : String → String) (m : SpecJobs.Monitor) :
    ((SpecJobs.sweepMonitor hashF c1 m).1.last_fingerprint = some (hashF (c1 m.url))) ∧
    ((SpecJobs.sweepMonitor hashF c1 m).2 = 1 ↔
      ∃ old, m.last_fingerprint = some old ∧ old ≠ hashF (c1 m.url)) ∧
    (m.last_fingerprint = none → (SpecJobs.sweepMonitor hashF c1 m).2 = 0) ∧
    (m.last_fingerprint = none →
      hashF (c2 m.url) ≠ hashF (c1 m.url) →
      (SpecJobs.sweepMonitor hashF c2 (SpecJobs.sweepMonitor hashF c1 m).1).2 = 1) := by
  refine ⟨rfl, ?_, ?_, ?_⟩
  · cases hlf : m.last_fingerprint with
    | none => simp [SpecJobs.sweepMonitor, hlf]
    | some old =>
        by_cases he : old = hashF (c1 m.url)
        · simp [SpecJobs.sweepMonitor, hlf, he]
        · simp [SpecJobs.sweepMonitor, hlf, he]
  · intro h0
    simp [SpecJobs.sweepMonitor, h0]
  · intro h0 hne
    simp [SpecJobs.sweepMonitor, h0, Ne.symm hne]

/-- Witness for C5: a fresh Monitor swept over content `a`, then over
content `b` (with the identity as the hash), notifies zero times on the
first sweep and exactly once on the second. -/
theorem c5_monitor_sweep_baseline_then_diff_witness :
    ((SpecJobs.sweepMonitor id (fun _ => "a") ⟨"https://u", "t@x.com", none⟩).2 = 0) ∧
    ((SpecJobs.sweepMonitor id (fun _ => "b")
        (SpecJobs.sweepMonitor id (fun _ => "a") ⟨"https://u", "t@x.com", none⟩).1).2 = 1) :=
  ⟨(c5_monitor_sweep_baseline_then_diff id (fun _ => "a") (fun _ => "b")
      ⟨"https://u", "t@x.com", none⟩).2.2.1 rfl,
   (c5_monitor_sweep_baseline_then_diff id (fun _ => "a") (fun _ => "b")
      ⟨"https://u", "t@x.com", none⟩).2.2.2 rfl (by decide)⟩

/-- When a flow is not the single-`gmail_forward_last` special case, the
background task is the browser path. -/
theorem P007.apiRunTask_eq_bpRun (env : P007.Env) (id : String) (su : Option String)
    (steps : List P007.BAction) (r0 : P007.RunRecord)
    (h : P007.isSingleGmail steps = false) :
    P007.apiRunTask env id ⟨su, steps⟩ r0 = P007.bpRun env id su steps r0 := by
  cases steps with
  | nil => rfl
  | cons a tl =>
      cases tl with
      | cons b tl2 => cases a <;> rfl
      | nil =>
          cases a with
          | gmailForwardLast t => simp [P007.isSingleGmail] at h
          | goto u t => rfl
          | click s => rfl
          | typeField s t e => rfl
          | waitFor s => rfl
          | screenshot => rfl
          | other tag => rfl

/-! ## C1 — a step fault aborts the rest of the run -/

/-- C1: in both executors, when the steps before `K` ran without fault
and step `K`'s handler raises a step fault (missing parameter, missing
context, or a failure of the external capability — all surfacing as the
thrown message `m`), then: in the `/api/run` background task (part_007)
the run's final status is `error`, the fault message is appended to the
log (`ERROR: m` is its last line), and the later steps never execute —
the final record is exactly the record of the run truncated after step
`K`; and in the synchronous `POST /run` executor (part_012) the response
is `{ok: false, error: m}`, identical to the response with the later
steps removed. -/
theorem c1_step_fault_aborts_run
    (env : P007.Env) (id : String) (su : Option String)
    (pre rest : List P007.BAction) (a : P007.BAction)
    (r1 r2 r3 : P007.RunRecord) (m : String)
    (h1 : P007.startPhase env su P007.initRecord = (r1, none))
    (h2 : P007.execSteps env id pre 0 r1 = (r2, none))
    (h3 : P007.execStep env id pre.length a r2 = (r3, some m))
    (h4 : P007.isSingleGmail (pre ++ a :: rest) = false)
    (env2 : P012.Env) (pre2 rest2 : List P012.SAction) (s : P012.SAction)
    (st : P012.St) (m2 : String)
    (h5 : P012.loop012 env2 pre2 (P012.init012 env2) = .ok st)
    (h6 : P012.step012 env2 s st = .error m2) :
    ((P007.apiRunTask env id ⟨su, pre ++ a :: rest⟩ P007.initRecord).status = "error" ∧
     (P007.apiRunTask env id ⟨su, pre ++ a :: rest⟩ P007.initRecord).logs =
       r3.logs ++ ["ERROR: " ++ m] ∧
     P007.apiRunTask env id ⟨su, pre ++ a :: rest⟩ P007.initRecord =
       P007.bpRun env id su (pre ++ [a]) P007.initRecord) ∧
    (P012.run012 env2 (pre2 ++ s :: rest2) = P012.RunOut.err m2 ∧
     P012.run012 env2 (pre2 ++ s :: rest2) = P012.run012 env2 (pre2 ++ [s])) := by
  have hrun : ∀ tail, P007.execSteps env id (pre ++ a :: tail) 0 r1 = (r3, some m) := by
    intro tail
    rw [P007.execSteps_append env id pre (a :: tail) 0 r1, h2]
    dsimp only
    simp only [Nat.zero_add, P007.execSteps, h3]
  have hbp : ∀ tail, P007.bpRun env id su (pre ++ a :: tail) P007.initRecord =
      P007.errorFinal r3 m := by
    intro tail
    unfold P007.bpRun
    rw [h1]
    dsimp only
    rw [hrun tail]
  have htask : P007.apiRunTask env id ⟨su, pre ++ a :: rest⟩ P007.initRecord =
      P007.errorFinal r3 m := by
    rw [P007.apiRunTask_eq_bpRun env id su _ _ h4, hbp rest]
  have htask2 : P007.apiRunTask env id ⟨su, pre ++ a :: rest⟩ P007.initRecord =
      P007.bpRun env id su (pre ++ [a]) P007.initRecord := by
    rw [htask, hbp ([] : List P007.BAction)]
  have hloop : ∀ tail, P012.loop012 env2 (pre2 ++ s :: tail) (P012.init012 env2) =
      .error m2 := by
    intro tail
    rw [P012.loop012_append env2 pre2 (s :: tail) _, h5]
    dsimp only
    simp only [P012.loop012, h6]
  have hne : ∀ tail, ((pre2 ++ s :: tail) : List P012.SAction).isEmpty = false := by
    intro tail
    cases pre2 <;> rfl
  refine ⟨⟨?_, ?_, htask2⟩, ?_, ?_⟩
  · rw [htask]; rfl
  · rw [htask]; rfl
  · simp only [P012.run012, hne rest2, hloop rest2]; rfl
  · simp only [P012.run012, hne rest2, hne ([] : List P012.SAction),
      hloop rest2, hloop ([] : List P012.SAction)]

/-- Witness for C1: a three-step flow whose second step's capability
throws `boom` ends with status `error`; a two-step part_012 request
whose first step throws `nav failed` answers `{ok:false, error}` and
equals the one-step run. -/
theorem c1_step_fault_aborts_run_witness :
    ((P007.apiRunTask faultEnv007 "run1"
        ⟨none, [P007.BAction.screenshot, P007.BAction.click (some "#x"),
                P007.BAction.screenshot]⟩ P007.initRecord).status = "error" ∧
     (P007.apiRunTask faultEnv007 "run1"
        ⟨none, [P007.BAction.screenshot, P007.BAction.click (some "#x"),
                P007.BAction.screenshot]⟩ P007.initRecord).logs =
       ["[0] screenshot", "[1] click #x", "ERROR: boom"]) ∧
    P012.run012 faultEnv012
      [P012.SAction.screenshotUrl (some "https://u"), P012.SAction.gmailSendText none none] =
      P012.RunOut.err "nav failed" := by
  have h := c1_step_fault_aborts_run faultEnv007 "run1" none
    [P007.BAction.screenshot] [P007.BAction.screenshot] (P007.BAction.click (some "#x"))
    P007.initRecord
    ⟨"running", ["[0] screenshot"], ["/runs/run1-0.png"], none⟩
    ⟨"running", ["[0] screenshot", "[1] click #x"], ["/runs/run1-0.png"], none⟩
    "boom" rfl rfl rfl rfl
    faultEnv012 [] [P012.SAction.gmailSendText none none]
    (P012.SAction.screenshotUrl (some "https://u"))
    (P012.init012 faultEnv012) "nav failed" rfl rfl
  exact ⟨⟨h.1.1, h.1.2.1.trans rfl⟩, h.2.1⟩

/-! ## C2 — the planner never targets the service's own address -/

/-- C2: for every text passing the `/api/plan` Gmail short-circuit's
keyword test (`gmail|email` and `forward`), whose extracted email matches
contain the service's own configured address (up to case) and at least
one other address, the planner returns the single-step
`gmail_forward_last` flow whose destination is one of the matches and is
never the service's own address (its lowercasing differs from the
lowercased `GMAIL_USER`). -/
theorem c2_planner_excludes_own_address
    (own text : String) (ms : List String) (o e : String)
    (hne : own ≠ "")
    (hkw : P007.gmailKeywords text = true)
    (hself : o ∈ ms) (ho : jsToLower o = jsToLower own)
    (hother : e ∈ ms) (he : jsToLower e ≠ jsToLower own) :
    ∃ d, P007.apiPlanShortCircuit (some own) text ms =
        some ⟨none, [P007.BAction.gmailForwardLast (some d)]⟩ ∧
      d ∈ ms ∧ jsToLower d ≠ jsToLower own := by
  have hjs : jsOrS (some own) "" = own := by simp [jsOrS, hne]
  have hsome : (ms.find? fun x => jsToLower x ≠ jsToLower own).isSome := by
    rw [List.find?_isSome]
    exact ⟨e, hother, by simpa using he⟩
  obtain ⟨d, hd⟩ := Option.isSome_iff_exists.mp hsome
  have hpred : jsToLower d ≠ jsToLower own := by simpa using List.find?_some hd
  refine ⟨d, ?_, List.mem_of_find?_eq_some hd, hpred⟩
  simp only [P007.apiPlanShortCircuit, hjs, hkw, if_true, hd]

/-- Witness for C2: with service address `svc@x.com`, matches
`["SVC@x.com", "dest@y.com"]` and a forward-Gmail prompt, the planner
targets an address other than the service's own. -/
theorem c2_planner_excludes_own_address_witness :
    ∃ d, P007.apiPlanShortCircuit (some "svc@x.com") "please forward my gmail"
        ["SVC@x.com", "dest@y.com"] =
        some ⟨none, [P007.BAction.gmailForwardLast (some d)]⟩ ∧
      d ∈ ["SVC@x.com", "dest@y.com"] ∧ jsToLower d ≠ jsToLower "svc@x.com" :=
  c2_planner_excludes_own_address "svc@x.com" "please forward my gmail"
    ["SVC@x.com", "dest@y.com"] "SVC@x.com" "dest@y.com"
    (by decide) (by decide) (by decide) (by decide) (by decide) (by decide)

/-! ## C3 — behaviour of the planners on unmatched input -/

/-- C3 counterexample: on the concrete unmatched prompt `hello world`
neither cited planner returns a Plan whose step sequence is empty:
`planFromPrompt` (part_012) returns `{ok: false, error}` carrying *no*
step sequence at all, and `parsePrompt` (part_003) returns a one-element
`noop` step sequence. -/
theorem c3_no_plan_counterexample :
    (P012.planFromPrompt "hello world").steps ≠ some [] ∧
    (P012.planFromPrompt "hello world").steps = none ∧
    (P012.planFromPrompt "hello world").ok = false ∧
    (P003.parsePrompt "hello world").steps ≠ [] ∧
    (P003.parsePrompt "hello world").steps =
      [P003.P3Step.noop "Could not understand prompt. Try: \x27Screenshot https://example.com and email to …\x27"] := by
  refine ⟨by decide, by decide, by decide, by decide, by decide⟩

/-- C3 (amended): unmatched input yields an explicit no-plan result and
the planners are total functions of the prompt (they never throw):
`planFromPrompt` (part_012) returns `ok: false` with an error message
and no `steps` field whenever no image task and no URL are detected, and
`parsePrompt` (part_003) returns the fixed one-element `noop` plan
whenever none of its three matchers fires. -/
theorem c3_no_heuristic_explicit_no_plan (t p : String)
    (h1 : P012.needsImage t = false) (h2 : Rx.urlFromText t = none)
    (h3 : P003.mShot (jsTrim p) = none) (h4 : P003.mPdf (jsTrim p) = none)
    (h5 : P003.mFwd (jsTrim p) = none) :
    P012.planFromPrompt t =
      { ok := false,
        error := some "Couldn’t detect a URL or an image/link task in the prompt.",
        kind := none, steps := none } ∧
    P003.parsePrompt p =
      { steps := [P003.P3Step.noop
          "Could not understand prompt. Try: \x27Screenshot https://example.com and email to …\x27"],
        summary := "Unrecognized prompt" } := by
  constructor
  · simp [P012.planFromPrompt, h1, h2]
  · simp [P003.parsePrompt, h3, h4, h5]

/-- Witness for C3 (amended) at the prompt `hello world`. -/
theorem c3_no_heuristic_explicit_no_plan_witness :
    P012.planFromPrompt "hello world" =
      { ok := false,
        error := some "Couldn’t detect a URL or an image/link task in the prompt.",
        kind := none, steps := none } ∧
    P003.parsePrompt "hello world" =
      { steps := [P003.P3Step.noop
          "Could not understand prompt. Try: \x27Screenshot https://example.com and email to …\x27"],
        summary := "Unrecognized prompt" } :=
  c3_no_heuristic_explicit_no_plan "hello world" "hello world"
    (by decide) (by decide) (by decide) (by decide) (by decide)

/-! ## C4 — unknown step kinds -/

/-- Unknown-kind steps leave the part_007 loop's record untouched: no
log line, no shot, no fault. -/
theorem P007.execSteps_all_other (env : P007.Env) (id : String) :
    ∀ (steps : List P007.BAction), steps.all P007.isOther = true →
    ∀ (i : Nat) (r : P007.RunRecord), P007.execSteps env id steps i r = (r, none) := by
  intro steps
  induction steps with
  | nil => intro _ i r; rfl
  | cons a rest ih =>
      intro h i r
      have ha : P007.isOther a = true := by
        have := List.all_eq_true.mp h a (by simp)
        exact this
      have hrest : rest.all P007.isOther = true := by
        refine List.all_eq_true.mpr ?_
        intro x hx
        exact List.all_eq_true.mp h x (by simp [hx])
      cases a with
      | other tag => simpa [P007.execSteps, P007.execStep] using ih hrest (i + 1) r
      | goto u t => simp [P007.isOther] at ha
      | click s => simp [P007.isOther] at ha
      | typeField s t e => simp [P007.isOther] at ha
      | waitFor s => simp [P007.isOther] at ha
      | screenshot => simp [P007.isOther] at ha
      | gmailForwardLast t => simp [P007.isOther] at ha

/-- C4 counterexample: a run consisting of one unknown-kind step
(`frobnicate`) through part_012's `POST /run` is not skipped-and-
continued: the `default` arm throws and the response is `{ok: false,
error: "Unknown action: frobnicate"}` — not a `done` run; and in
part_007's loop, which does skip the step, nothing at all is logged for
it (the claim requires the step to be logged). -/
theorem c4_unknown_kind_counterexample :
    P012.run012 trivEnv012 [P012.SAction.other "frobnicate"] =
      P012.RunOut.err "Unknown action: frobnicate" ∧
    (P007.apiRunTask trivEnv007 "r" ⟨none, [P007.BAction.other "frobnicate"]⟩
        P007.initRecord).logs = [] :=
  ⟨by decide, by decide⟩

/-- C4 (amended): the two executors disagree; neither matches the claim
verbatim.  In the `/api/run` background task (part_007) a run whose
steps are all unknown-kind finishes with status `done` and the unknown
steps are skipped *silently* — the log stays empty, nothing is recorded
for them.  In the synchronous `POST /run` executor (part_012) the first
unknown-kind step is not skipped: the `default` arm throws `Unknown
action: <kind>` and the run aborts with an error response. -/
theorem c4_unknown_kind_behaviour
    (env : P007.Env) (id : String) (steps : List P007.BAction)
    (h : steps.all P007.isOther = true)
    (env2 : P012.Env) (pre2 rest2 : List P012.SAction) (tag2 : String)
    (st : P012.St)
    (h5 : P012.loop012 env2 pre2 (P012.init012 env2) = .ok st) :
    ((P007.apiRunTask env id ⟨none, steps⟩ P007.initRecord).status = "done" ∧
     (P007.apiRunTask env id ⟨none, steps⟩ P007.initRecord).logs = [] ∧
     (P007.apiRunTask env id ⟨none, steps⟩ P007.initRecord).shots = []) ∧
    P012.run012 env2 (pre2 ++ P012.SAction.other tag2 :: rest2) =
      P012.RunOut.err ("Unknown action: " ++ tag2) := by
  have hsg : P007.isSingleGmail steps = false := by
    cases steps with
    | nil => rfl
    | cons a tl =>
        cases tl with
        | cons b tl2 => cases a <;> rfl
        | nil =>
            cases a with
            | gmailForwardLast t => simp [P007.isOther] at h
            | goto u t => rfl
            | click s' => rfl
            | typeField s' t e => rfl
            | waitFor s' => rfl
            | screenshot => rfl
            | other tag => rfl
  have htask : P007.apiRunTask env id ⟨none, steps⟩ P007.initRecord =
      { status := "done", logs := [], shots := [],
        videoUrl := env.video.map (fun v => "/" ++ v) } := by
    rw [P007.apiRunTask_eq_bpRun env id none steps P007.initRecord hsg]
    unfold P007.bpRun
    simp only [P007.startPhase]
    rw [P007.execSteps_all_other env id steps h 0 P007.initRecord]
    rfl
  have hloop : P012.loop012 env2 (pre2 ++ P012.SAction.other tag2 :: rest2)
      (P012.init012 env2) = .error ("Unknown action: " ++ tag2) := by
    rw [P012.loop012_append env2 pre2 _ _, h5]
    dsimp only
    simp only [P012.loop012, P012.step012]
  have hne : ((pre2 ++ P012.SAction.other tag2 :: rest2) : List P012.SAction).isEmpty = false := by
    cases pre2 <;> rfl
  refine ⟨⟨?_, ?_, ?_⟩, ?_⟩
  · rw [htask]
  · rw [htask]
  · rw [htask]
  · simp only [P012.run012, hne, hloop]; rfl

/-- Witness for C4 (amended): a two-step all-unknown run through
part_007 ends `done` with empty log; an unknown step after a successful
`extract_links` step through part_012 aborts the run. -/
theorem c4_unknown_kind_behaviour_witness :
    ((P007.apiRunTask trivEnv007 "r9"
        ⟨none, [P007.BAction.other "alpha", P007.BAction.other "beta"]⟩
        P007.initRecord).status = "done" ∧
     (P007.apiRunTask trivEnv007 "r9"
        ⟨none, [P007.BAction.other "alpha", P007.BAction.other "beta"]⟩
        P007.initRecord).logs = [] ∧
     (P007.apiRunTask trivEnv007 "r9"
        ⟨none, [P007.BAction.other "alpha", P007.BAction.other "beta"]⟩
        P007.initRecord).shots = []) ∧
    P012.run012 trivEnv012
      [P012.SAction.extractStep (some "https://u") (some 3), P012.SAction.other "gamma"] =
      P012.RunOut.err ("Unknown action: " ++ "gamma") := by
  have h := c4_unknown_kind_behaviour trivEnv007 "r9"
    [P007.BAction.other "alpha", P007.BAction.other "beta"] (by decide)
    trivEnv012 [P012.SAction.extractStep (some "https://u") (some 3)] [] "gamma"
    { results := [P012.Res.links []], dir := [], sent := [] } (by rfl)
  exact h

/-! ## C7 — truncation and fallback of link extraction -/

/-- Ranked insertion is a permutation of consing. -/
theorem P006.insertRanked_perm (x : P006.LinkT) (l : List P006.LinkT) :
    (P006.insertRanked x l).Perm (x :: l) := by
  induction l with
  | nil => exact List.Perm.refl _
  | cons y ys ih =>
      unfold P006.insertRanked
      by_cases h : P006.rankLe x y
      · simp [h]
      · simp only [h, Bool.false_eq_true, if_false]
        exact List.Perm.trans (List.Perm.cons y ih) (List.Perm.swap x y ys)

/-- The ranking sort permutes its input. -/
theorem P006.sortRanked_perm (l : List P006.LinkT) : (P006.sortRanked l).Perm l := by
  induction l with
  | nil => exact List.Perm.refl _
  | cons x xs ih =>
      unfold P006.sortRanked
      exact List.Perm.trans (P006.insertRanked_perm x (P006.sortRanked xs)) (List.Perm.cons x ih)

/-- C7 counterexample: part_012's `extractLinks` on a page where no
anchor passes filtering returns the empty list (not a one-element
fallback), and part_006's `topLinks` with requested count 25 over a page
with 25 distinct surviving anchors returns 25 entries — more than the
claimed clamp `max(1, min(20, 25)) = 20`.  No single implementation
satisfies both halves of the claim. -/
theorem c7_extract_links_counterexample :
    P012.extractLinks [] 5 = [] ∧
    (P006.topLinks ((List.range 25).map fun i =>
        (⟨some ("https://s.com/" ++ toString i), "t" ++ toString i⟩ : P006.Anchor))
      "https://u" 25).length = 25 :=
  ⟨by decide, by decide⟩

/-- C7 (amended): the truncation and the fallback live in different
implementations.  part_012's `extractLinks` returns at most
`max(1, min(20, n))` entries but returns `[]` when no anchor passes
filtering; part_006's `topLinks` never returns an empty list — when no
anchor survives filtering it returns exactly the one-element list whose
entry is the input URL — but truncates with the raw requested count
(bounded only below, by the fallback), not clamped to 20. -/
theorem c7_extract_links_clamp_and_fallback
    (ancs : List (String × String)) (n : Int)
    (ancs6 : List P006.Anchor) (url : String) (limit : Nat) :
    ((P012.extractLinks ancs n).length ≤ (max 1 (min 20 n)).toNat) ∧
    (P006.topLinks ancs6 url limit ≠ []) ∧
    (P006.rawLinks ancs6 = [] → P006.topLinks ancs6 url limit = [⟨url, url⟩]) ∧
    ((P006.topLinks ancs6 url limit).length ≤ max limit 1) := by
  refine ⟨?_, ?_, ?_, ?_⟩
  · simp only [P012.extractLinks]
    exact List.length_take_le _ _
  · unfold P006.topLinks
    by_cases h : 0 < ((P006.sortRanked (P006.dedupeLinks (P006.rawLinks ancs6) [])).take limit).length
    · simp only [h, if_true]
      intro hcon
      rw [hcon] at h
      simp at h
    · simp only [h, if_false]
      simp
  · intro h0
    unfold P006.topLinks
    simp [h0, P006.dedupeLinks, P006.sortRanked]
  · unfold P006.topLinks
    by_cases h : 0 < ((P006.sortRanked (P006.dedupeLinks (P006.rawLinks ancs6) [])).take limit).length
    · simp only [h, if_true]
      calc ((P006.sortRanked (P006.dedupeLinks (P006.rawLinks ancs6) [])).take limit).length
          ≤ limit := List.length_take_le _ _
        _ ≤ max limit 1 := le_max_left _ _
    · simp only [h, if_false]
      simp only [List.length_singleton]
      exact le_max_right limit 1

/-- Witness for C7 at concrete inputs: one surviving anchor under count
5; the empty page falls back to the input URL. -/
theorem c7_extract_links_clamp_and_fallback_witness :
    ((P012.extractLinks [("title", "https://h")] 5).length ≤ (max 1 (min 20 (5 : Int))).toNat) ∧
    P006.topLinks [] "https://u" 3 = [⟨"https://u", "https://u"⟩] :=
  ⟨(c7_extract_links_clamp_and_fallback [("title", "https://h")] 5 [] "https://u" 3).1,
   (c7_extract_links_clamp_and_fallback [("title", "https://h")] 5 [] "https://u" 3).2.2.1 rfl⟩

/-! ## C8 — `forward_latest_message` -/

/-- C8 counterexample: the body handed to the mail sender is not the
message's raw content — it is a fixed header line followed by the raw
content (and, for longer messages, only its first 100000 characters):
for the one-message mailbox whose raw source is `hello`, the sent body
is `Forwarded message (raw below):\n\nhello`, not `hello`. -/
theorem c8_forward_body_counterexample :
    P007.forwardLastEmail (some "svc@x.com") (some "pw")
        [⟨some "Hi", some "hello"⟩] (some "a@b.com") =
      .ok { fromA := "svc@x.com", toAddr := some "a@b.com", subject := "Fwd: Hi",
            textBody := "Forwarded message (raw below):\n\nhello" } ∧
    "Forwarded message (raw below):\n\nhello" ≠ "hello" :=
  ⟨rfl, by decide⟩

/-- C8 (amended): with the Gmail credentials set, `forwardLastEmail`
raises the step fault `No messages in INBOX` on an empty mailbox
(sending nothing), and otherwise fetches exactly the single most recent
message — the one whose sequence number is the mailbox size, i.e. the
last message of the sequence-ordered mailbox — and hands the mail sender
a body consisting of the fixed header `Forwarded message (raw below):`
plus a blank line followed by the first 100000 characters of that
message's raw source, under the subject `Fwd: ` + (its subject or
`(no subject)`). -/
theorem c8_forward_latest_message (user pwd : Option String) (msgs : List P007.Msg)
    (m : P007.Msg) (toA : Option String)
    (hu : jsTruthy user = true) (hp : jsTruthy pwd = true) :
    (P007.forwardLastEmail user pwd [] toA = .error "No messages in INBOX") ∧
    (P007.forwardLastEmail user pwd (msgs ++ [m]) toA =
      .ok { fromA := jsOrS user "", toAddr := toA,
            subject := "Fwd: " ++ jsOrS m.subject "(no subject)",
            textBody := "Forwarded message (raw below):\n\n" ++
              String.mk ((jsOrS m.source "").toList.take 100000) }) := by
  constructor
  · simp [P007.forwardLastEmail, hu, hp]
  · simp [P007.forwardLastEmail, hu, hp, List.getLast?_concat]

/-- Witness for C8: credentials set; the empty mailbox faults, and a
two-message mailbox forwards the second (most recent) message. -/
theorem c8_forward_latest_message_witness :
    (P007.forwardLastEmail (some "svc@x.com") (some "pw") [] (some "a@b.com") =
      .error "No messages in INBOX") ∧
    (P007.forwardLastEmail (some "svc@x.com") (some "pw")
        [⟨some "Old", some "old-raw"⟩, ⟨some "New", some "new-raw"⟩] (some "a@b.com") =
      .ok { fromA := "svc@x.com", toAddr := some "a@b.com", subject := "Fwd: New",
            textBody := "Forwarded message (raw below):\n\nnew-raw" }) := by
  have h := c8_forward_latest_message (some "svc@x.com") (some "pw")
    [⟨some "Old", some "old-raw"⟩] ⟨some "New", some "new-raw"⟩ (some "a@b.com")
    (by decide) (by decide)
  exact ⟨h.1, h.2.trans (by rfl)⟩

/-! ## C9 — which artifact does `gmail_send_last` send? -/

/-- C9 counterexample: in part_012's `POST /run`, `gmail_send_last`
attaches `newestFileIn(RUNS_DIR)` — the newest file of the directory
shared by **all** runs of the process.  `dirEnvA` is the directory as the
current run alone would find it (its own `a.png`); `dirEnvB` is the same
directory after a concurrent run wrote `b.png` later.  The same
one-step run sends `a.png` in the first case and the other run's
`b.png` in the second: the content one run sends depends on an
artifact created by the other run. -/
theorem c9_shared_runs_dir_counterexample :
    (P012.loop012 dirEnvA [P012.SAction.gmailSendLast (some "me@x.com")]
        (P012.init012 dirEnvA)).map P012.St.sent =
      .ok [{ toAddr := some "me@x.com", subject := "Mediad AutoDirector – file",
             textBody := "Attached is the latest file.", attachment := some "a.png" }] ∧
    (P012.loop012 dirEnvB [P012.SAction.gmailSendLast (some "me@x.com")]
        (P012.init012 dirEnvB)).map P012.St.sent =
      .ok [{ toAddr := some "me@x.com", subject := "Mediad AutoDirector – file",
             textBody := "Attached is the latest file.", attachment := some "b.png" }] ∧
    ("a.png" : String) ≠ "b.png" :=
  ⟨rfl, rfl, by decide⟩

/-- Adding a step in front can only enlarge the produced-paths set. -/
theorem P013.mem_producedPaths_cons (env : P013.Env) (a : P013.A13)
    (rest : List P013.A13) (p : String) (h : p ∈ P013.producedPaths env rest) :
    p ∈ P013.producedPaths env (a :: rest) := by
  cases a with
  | screenshotUrl u =>
      simp only [P013.producedPaths]
      exact List.mem_append_right _ h
  | createImage pr =>
      simp only [P013.producedPaths]
      exact List.mem_append_right _ h
  | gmailSendLast t att => simpa [P013.producedPaths] using h
  | extractStep u c => simpa [P013.producedPaths] using h
  | gmailSendText t x => simpa [P013.producedPaths] using h
  | other tag => simpa [P013.producedPaths] using h

/-- Adding a step in front can only enlarge the step-supplied
attachment set. -/
theorem P013.mem_stepAtts_cons (a : P013.A13) (rest : List P013.A13) (p : String)
    (h : p ∈ P013.stepAtts rest) : p ∈ P013.stepAtts (a :: rest) := by
  cases a with
  | gmailSendLast t att =>
      cases att with
      | some q => simp [P013.stepAtts, h]
      | none => simpa [P013.stepAtts] using h
  | screenshotUrl u => simpa [P013.stepAtts] using h
  | createImage pr => simpa [P013.stepAtts] using h
  | extractStep u c => simpa [P013.stepAtts] using h
  | gmailSendText t x => simpa [P013.stepAtts] using h
  | other tag => simpa [P013.stepAtts] using h

/-- A truthy optional string is `some` of a non-empty string. -/
theorem jsTruthy_eq_some (o : Option String) (h : jsTruthy o = true) :
    ∃ w, o = some w ∧ w ≠ "" := by
  cases o with
  | none => simp [jsTruthy] at h
  | some s => exact ⟨s, rfl, by simpa [jsTruthy] using h⟩

/-- Invariant of part_013's loop: the last-produced file traces to the
initial state or to this run's own capture steps, and every mail's
attachment traces to a step-supplied path, a path this run's own steps
produced, or the initial state's last file. -/
theorem P013.loop13_sends_own (env : P013.Env) :
    ∀ (steps : List P013.A13) (st0 stf : P013.St),
      P013.loop13 env steps st0 = .ok stf →
      (∀ q : String, stf.lastFilePath = some q →
          st0.lastFilePath = some q ∨ q ∈ P013.producedPaths env steps) ∧
      (∀ s ∈ stf.sent, s ∈ st0.sent ∨
          ∀ p : String, s.attachment = some p →
            p ∈ P013.stepAtts steps ∨ p ∈ P013.producedPaths env steps ∨
            st0.lastFilePath = some p) := by
  intro steps
  induction steps with
  | nil =>
      intro st0 stf h
      have he : st0 = stf := by
        simpa [P013.loop13] using h
      subst he
      exact ⟨fun q hq => Or.inl hq, fun s hs => Or.inl hs⟩
  | cons a rest ih =>
      intro st0 stf h
      rw [show P013.loop13 env (a :: rest) st0 =
          (match P013.step13 env a st0 with
           | .ok st' => P013.loop13 env rest st'
           | .error m => .error m) from rfl] at h
      cases ha : P013.step13 env a st0 with
      | error m => rw [ha] at h; cases h
      | ok st1 =>
          rw [ha] at h
          obtain ⟨ih1, ih2⟩ := ih st1 stf h
          -- head analysis: how st1 relates to st0
          have head :
              (∀ q : String, st1.lastFilePath = some q →
                  st0.lastFilePath = some q ∨ q ∈ P013.producedPaths env (a :: rest)) ∧
              (∀ s ∈ st1.sent, s ∈ st0.sent ∨
                  ∀ p : String, s.attachment = some p →
                    p ∈ P013.stepAtts (a :: rest) ∨ p ∈ P013.producedPaths env (a :: rest) ∨
                    st0.lastFilePath = some p) := by
            cases a with
            | screenshotUrl u =>
                cases hc : env.shot u with
                | error m => rw [P013.step13, hc] at ha; cases ha
                | ok fp =>
                    rw [P013.step13, hc] at ha
                    cases ha
                    constructor
                    · intro q hq
                      refine Or.inr ?_
                      simp only [P013.producedPaths, hc]
                      simp only [Option.some.injEq] at hq
                      simp [hq]
                    · intro s hs
                      exact Or.inl hs
            | createImage pr =>
                cases hc : env.image pr with
                | error m => rw [P013.step13, hc] at ha; cases ha
                | ok fp =>
                    rw [P013.step13, hc] at ha
                    cases ha
                    constructor
                    · intro q hq
                      refine Or.inr ?_
                      simp only [P013.producedPaths, hc]
                      simp only [Option.some.injEq] at hq
                      simp [hq]
                    · intro s hs
                      exact Or.inl hs
            | extractStep u c =>
                cases hc : env.anchorHrefs u with
                | error m => rw [P013.step13, hc] at ha; cases ha
                | ok hs' =>
                    rw [P013.step13, hc] at ha
                    cases ha
                    exact ⟨fun q hq => Or.inl hq, fun s hs => Or.inl hs⟩
            | gmailSendText t x =>
                rw [P013.step13] at ha
                cases hm : P013.sendEmailWithAttachment env t "AutoDirector Links"
                    (jsOrS x (jsOrS st0.textF "(no text)")) none with
                | error m => rw [hm] at ha; cases ha
                | ok mail =>
                    rw [hm] at ha
                    cases ha
                    have hatt : mail.attachment = none := by
                      unfold P013.sendEmailWithAttachment at hm
                      cases hcr : env.creds with
                      | none => rw [hcr] at hm; cases hm
                      | some user =>
                          rw [hcr] at hm
                          dsimp only at hm
                          split at hm
                          · cases hm
                          · cases hm
                            rfl
                    constructor
                    · intro q hq
                      exact Or.inl hq
                    · intro s hs
                      simp only [List.mem_append, List.mem_singleton] at hs
                      rcases hs with hs | hs
                      · exact Or.inl hs
                      · subst hs
                        refine Or.inr ?_
                        intro p hp
                        rw [hatt] at hp
                        cases hp
            | other tag =>
                rw [P013.step13] at ha
                cases ha
            | gmailSendLast t att =>
                rw [P013.step13] at ha
                by_cases hg : (!jsTruthy st0.lastFilePath && !jsTruthy att) = true
                · rw [if_pos hg] at ha; cases ha
                · rw [if_neg hg] at ha
                  dsimp only at ha
                  cases hm : P013.sendEmailWithAttachment env t "AutoDirector Result"
                      "See attached file." (some (jsOrS att (jsOrS st0.lastFilePath ""))) with
                  | error m => rw [hm] at ha; cases ha
                  | ok mail =>
                      rw [hm] at ha
                      cases ha
                      have hatt : mail.attachment =
                          some (jsOrS att (jsOrS st0.lastFilePath "")) := by
                        unfold P013.sendEmailWithAttachment at hm
                        cases hcr : env.creds with
                        | none => rw [hcr] at hm; cases hm
                        | some user =>
                            rw [hcr] at hm
                            dsimp only at hm
                            split at hm
                            · cases hm
                            · cases hm
                              rfl
                      constructor
                      · intro q hq
                        exact Or.inl hq
                      · intro s hs
                        simp only [List.mem_append, List.mem_singleton] at hs
                        rcases hs with hs | hs
                        · exact Or.inl hs
                        · subst hs
                          refine Or.inr ?_
                          intro p hp
                          rw [hatt] at hp
                          simp only [Option.some.injEq] at hp
                          -- hp : jsOrS att (jsOrS st0.lastFilePath "") = p
                          cases hA : att with
                          | some v =>
                              by_cases hv : v = ""
                              · -- att falsy: falls back to st0.lastFilePath
                                subst hA
                                subst hv
                                have hlf : jsTruthy st0.lastFilePath = true := by
                                  cases hno : jsTruthy st0.lastFilePath with
                                  | true => rfl
                                  | false => exact absurd (by rw [hno]; rfl) hg
                                obtain ⟨w, hL, hw⟩ := jsTruthy_eq_some _ hlf
                                refine Or.inr (Or.inr ?_)
                                rw [hL] at hp ⊢
                                rw [← hp]
                                simp [jsOrS, hw]
                              · -- att truthy: the step's own path
                                subst hA
                                refine Or.inl ?_
                                rw [← hp]
                                simp [jsOrS, hv, P013.stepAtts]
                          | none =>
                              subst hA
                              have hlf : jsTruthy st0.lastFilePath = true := by
                                cases hno : jsTruthy st0.lastFilePath with
                                | true => rfl
                                | false => exact absurd (by rw [hno]; rfl) hg
                              obtain ⟨w, hL, hw⟩ := jsTruthy_eq_some _ hlf
                              refine Or.inr (Or.inr ?_)
                              rw [hL] at hp ⊢
                              rw [← hp]
                              simp [jsOrS, hw]
          refine ⟨?_, ?_⟩
          · intro q hq
            rcases ih1 q hq with h1 | h1
            · exact head.1 q h1
            · exact Or.inr (P013.mem_producedPaths_cons env a rest q h1)
          · intro s hs
            rcases ih2 s hs with h2 | h2
            · rcases head.2 s h2 with h3 | h3
              · exact Or.inl h3
              · exact Or.inr h3
            · refine Or.inr ?_
              intro p hp
              rcases h2 p hp with h3 | h3 | h3
              · exact Or.inl (P013.mem_stepAtts_cons a rest p h3)
              · exact Or.inr (Or.inl (P013.mem_producedPaths_cons env a rest p h3))
              · rcases head.1 p h3 with h4 | h4
                · exact Or.inr (Or.inr h4)
                · exact Or.inr (Or.inl h4)

/-- C9 (amended): part_013's `/run` executor keeps per-run state (`const
state = {}` created per request): every attachment its `gmail_send_last`
hands to the mail sender is either supplied by the step itself or a file
produced by a capture step of the *same* run — never an artifact of
another run.  Part_012's `POST /run` does not satisfy the claim: its
`gmail_send_last` attaches the newest file of the process-wide shared
`RUNS_DIR`, which may be a concurrent run's artifact (see the
counterexample). -/
theorem c9_per_run_state_isolation (env : P013.Env) (steps : List P013.A13)
    (stf : P013.St) (h : P013.loop13 env steps P013.init13 = .ok stf) :
    ∀ s ∈ stf.sent, ∀ p : String, s.attachment = some p →
      p ∈ P013.stepAtts steps ∨ p ∈ P013.producedPaths env steps := by
  intro s hs p hp
  have hinv := (P013.loop13_sends_own env steps P013.init13 stf h).2 s hs
  rcases hinv with hmem | hprop
  · simp [P013.init13] at hmem
  · rcases hprop p hp with h1 | h1 | h1
    · exact Or.inl h1
    · exact Or.inr h1
    · simp [P013.init13] at h1

/-- Witness for C9 (amended): a screenshot step followed by
`gmail_send_last` sends exactly the file the screenshot step of this run
produced. -/
theorem c9_per_run_state_isolation_witness :
    "/srv/runs/f1.png" ∈ P013.stepAtts
        [P013.A13.screenshotUrl (some "https://u"),
         P013.A13.gmailSendLast (some "a@b.com") none] ∨
    "/srv/runs/f1.png" ∈ P013.producedPaths trivEnv13
        [P013.A13.screenshotUrl (some "https://u"),
         P013.A13.gmailSendLast (some "a@b.com") none] := by
  have h := c9_per_run_state_isolation trivEnv13
    [P013.A13.screenshotUrl (some "https://u"),
     P013.A13.gmailSendLast (some "a@b.com") none]
    { lastFilePath := some "/srv/runs/f1.png", textF := none,
      results := [P013.Res13.shot ("/runs/" ++ "f1.png"), P013.Res13.sentLast "a@b.com"],
      sent := [{ toAddr := "a@b.com", subject := "AutoDirector Result",
                 textBody := "See attached file.",
                 attachment := some "/srv/runs/f1.png" }] }
    rfl
    { toAddr := "a@b.com", subject := "AutoDirector Result",
      textBody := "See attached file.", attachment := some "/srv/runs/f1.png" }
    (by simp) "/srv/runs/f1.png" rfl
  exact h

/-! ## C6 — the de-duplication key ignores fragment and query -/

/-- A parseable URL string stays parseable under appended characters:
the scheme test only inspects the prefix up to the `:`. -/
theorem P006.hasScheme_append (b r : List Char) (hs : P006.hasScheme b = true) :
    P006.hasScheme (b ++ r) = true := by
  unfold P006.hasScheme at hs ⊢
  cases hb : b.head? with
  | none => rw [hb] at hs; cases hs
  | some c0 =>
      rw [hb] at hs
      have hbne : b ≠ [] := by
        intro hx
        rw [hx] at hb
        cases hb
      have hs' := hs
      simp only [Bool.and_eq_true, decide_eq_true_eq] at hs'
      have halpha : c0.isAlpha = true := hs'.1
      have hcolon : (b.drop (b.takeWhile P006.schemeChar).length).head? = some ':' := hs'.2
      have hk : (b.takeWhile P006.schemeChar).length < b.length := by
        by_contra hge
        push_neg at hge
        have hle : b.length ≤ (b.takeWhile P006.schemeChar).length := hge
        have : b.drop (b.takeWhile P006.schemeChar).length = [] := by
          rw [List.drop_eq_nil_iff]
          exact hle
        rw [this] at hcolon
        cases hcolon
      rw [List.head?_append_of_ne_nil b hbne, hb]
      have htw : (b ++ r).takeWhile P006.schemeChar = b.takeWhile P006.schemeChar := by
        rw [List.takeWhile_append]
        rw [if_neg (Nat.ne_of_lt hk)]
      rw [htw]
      have hdrop : (b ++ r).drop (b.takeWhile P006.schemeChar).length =
          b.drop (b.takeWhile P006.schemeChar).length ++ r := by
        exact List.drop_append_of_le_length (Nat.le_of_lt hk)
      have hdne : b.drop (b.takeWhile P006.schemeChar).length ≠ [] := by
        intro hx
        rw [hx] at hcolon
        cases hcolon
      rw [hdrop, List.head?_append_of_ne_nil _ hdne, hcolon]
      simp [halpha]

/-- Appending a query (`""` or `?…` without `#`) and a fragment (`""` or
`#…`) to a parseable URL whose serialisation itself carries no `?` or
`#` does not change its normalised de-duplication key: it is the base
serialisation itself. -/
theorem P006.normalize_append (base q f : String)
    (hb : P006.hasScheme base.data = true)
    (hbq : '?' ∉ base.data) (hbh : '#' ∉ base.data)
    (hq : q = "" ∨ strStarts q "?" = true) (hqh : '#' ∉ q.data)
    (hf : f = "" ∨ strStarts f "#" = true) :
    P006.normalize (base ++ q ++ f) = base := by
  have hdata : (base ++ q ++ f).data = base.data ++ (q.data ++ f.data) := by
    simp [String.data_append, List.append_assoc]
  unfold P006.normalize
  have hsch : P006.hasScheme (base ++ q ++ f).toList = true := by
    show P006.hasScheme (base ++ q ++ f).data = true
    rw [hdata]
    exact P006.hasScheme_append base.data _ hb
  rw [if_pos hsch]
  show String.mk ((((base ++ q ++ f).data).takeWhile fun c => c ≠ '#').takeWhile
      fun c => c ≠ '?') = base
  rw [hdata]
  have h1 : ((base.data ++ (q.data ++ f.data)).takeWhile fun c => c ≠ '#') =
      base.data ++ q.data := by
    rw [List.takeWhile_append]
    have hall : (base.data.takeWhile fun c => c ≠ '#') = base.data :=
      List.takeWhile_eq_self_iff.mpr (by
        intro x hx
        simp only [decide_eq_true_eq]
        intro hxe
        exact hbh (hxe ▸ hx))
    rw [if_pos (by rw [hall])]
    congr 1
    rw [List.takeWhile_append]
    have hallq : (q.data.takeWhile fun c => c ≠ '#') = q.data :=
      List.takeWhile_eq_self_iff.mpr (by
        intro x hx
        simp only [decide_eq_true_eq]
        intro hxe
        exact hqh (hxe ▸ hx))
    rw [if_pos (by rw [hallq])]
    have hfz : (f.data.takeWhile fun c => c ≠ '#') = [] := by
      rcases hf with hf | hf
      · rw [hf]; rfl
      · unfold strStarts at hf
        cases hfd : f.data with
        | nil => rfl
        | cons c rest =>
            rw [hfd] at hf
            have hc : '#' = c := by simpa [List.isPrefixOf] using hf
            subst hc
            rw [List.takeWhile_cons]
            simp
    rw [hfz, List.append_nil]
  rw [h1]
  have h2 : ((base.data ++ q.data).takeWhile fun c => c ≠ '?') = base.data := by
    rw [List.takeWhile_append]
    have hall : (base.data.takeWhile fun c => c ≠ '?') = base.data :=
      List.takeWhile_eq_self_iff.mpr (by
        intro x hx
        simp only [decide_eq_true_eq]
        intro hxe
        exact hbq (hxe ▸ hx))
    rw [if_pos (by rw [hall])]
    have hqz : (q.data.takeWhile fun c => c ≠ '?') = [] := by
      rcases hq with hq | hq
      · rw [hq]; rfl
      · unfold strStarts at hq
        cases hqd : q.data with
        | nil => rfl
        | cons c rest =>
            rw [hqd] at hq
            have hc : '?' = c := by simpa [List.isPrefixOf] using hq
            subst hc
            rw [List.takeWhile_cons]
            simp
    rw [hqz, List.append_nil]
  rw [h2]

/-- The de-duplication loop's output has pairwise-distinct normalised
keys, and never re-emits a key that was already seen. -/
theorem P006.dedupeLinks_nodup :
    ∀ (l : List P006.LinkT) (seen : List String),
      ((P006.dedupeLinks l seen).map fun e => P006.normalize e.href).Nodup ∧
      ∀ k ∈ seen, k ∉ (P006.dedupeLinks l seen).map fun e => P006.normalize e.href := by
  intro l
  induction l with
  | nil =>
      intro seen
      exact ⟨by simp [P006.dedupeLinks], by intro k _; simp [P006.dedupeLinks]⟩
  | cons r rest ih =>
      intro seen
      by_cases hm : P006.normalize r.href ∈ seen
      · constructor
        · simpa [P006.dedupeLinks, hm] using (ih seen).1
        · intro k hk
          simpa [P006.dedupeLinks, hm] using (ih seen).2 k hk
      · have hcb : ¬ (seen.contains (P006.normalize r.href) = true) := by
          simpa using hm
        constructor
        · simp only [P006.dedupeLinks]
          rw [if_neg hcb]
          simp only [List.map_cons]
          refine List.nodup_cons.mpr ⟨?_, (ih (P006.normalize r.href :: seen)).1⟩
          exact (ih (P006.normalize r.href :: seen)).2 (P006.normalize r.href) (by simp)
        · intro k hk
          simp only [P006.dedupeLinks]
          rw [if_neg hcb]
          simp only [List.map_cons, List.mem_cons, not_or]
          constructor
          · intro hkey
            exact hm (hkey ▸ hk)
          · exact (ih (P006.normalize r.href :: seen)).2 k (by simp [hk])

/-- C6: the link-extraction de-duplication key is invariant under
fragment and query differences — two anchor URLs sharing a serialisation
`base` (itself free of `?` and `#`) and differing only in their query
and/or fragment suffixes normalise to the same key, namely `base` — and
consequently the extracted `topLinks` result never contains two entries
with the same normalised key: at most one of such a pair survives
de-duplication. -/
theorem c6_normalize_dedupe_key
    (base q1 f1 q2 f2 : String)
    (hb : P006.hasScheme base.data = true)
    (hbq : '?' ∉ base.data) (hbh : '#' ∉ base.data)
    (hq1 : q1 = "" ∨ strStarts q1 "?" = true) (hq1h : '#' ∉ q1.data)
    (hf1 : f1 = "" ∨ strStarts f1 "#" = true)
    (hq2 : q2 = "" ∨ strStarts q2 "?" = true) (hq2h : '#' ∉ q2.data)
    (hf2 : f2 = "" ∨ strStarts f2 "#" = true)
    (ancs : List P006.Anchor) (url : String) (limit : Nat) :
    (P006.normalize (base ++ q1 ++ f1) = P006.normalize (base ++ q2 ++ f2) ∧
     P006.normalize (base ++ q1 ++ f1) = base) ∧
    ((P006.topLinks ancs url limit).map fun e => P006.normalize e.href).Nodup := by
  have h1 := P006.normalize_append base q1 f1 hb hbq hbh hq1 hq1h hf1
  have h2 := P006.normalize_append base q2 f2 hb hbq hbh hq2 hq2h hf2
  refine ⟨⟨h1.trans h2.symm, h1⟩, ?_⟩
  unfold P006.topLinks
  by_cases hp : 0 < ((P006.sortRanked (P006.dedupeLinks (P006.rawLinks ancs) [])).take limit).length
  · simp only [hp, if_true]
    have hd : ((P006.dedupeLinks (P006.rawLinks ancs) []).map
        fun e => P006.normalize e.href).Nodup :=
      (P006.dedupeLinks_nodup (P006.rawLinks ancs) []).1
    have hperm : ((P006.sortRanked (P006.dedupeLinks (P006.rawLinks ancs) [])).map
        fun e => P006.normalize e.href).Nodup := by
      have hp' := (P006.sortRanked_perm (P006.dedupeLinks (P006.rawLinks ancs) [])).map
        fun e => P006.normalize e.href
      exact hp'.nodup_iff.mpr hd
    have htake : ((P006.sortRanked (P006.dedupeLinks (P006.rawLinks ancs) [])).take limit).map
        (fun e => P006.normalize e.href) =
        (((P006.sortRanked (P006.dedupeLinks (P006.rawLinks ancs) [])).map
          fun e => P006.normalize e.href).take limit) := by
      rw [List.map_take]
    rw [htake]
    exact hperm.sublist (List.take_sublist _ _)
  · simp only [hp, if_false]
    simp

/-- Witness for C6: `https://a.com/x?q=1#frag` and `https://a.com/x#other`
normalise to the same key `https://a.com/x`, and a concrete `topLinks`
result has pairwise-distinct keys. -/
theorem c6_normalize_dedupe_key_witness :
    (P006.normalize ("https://a.com/x" ++ "?q=1" ++ "#frag") =
       P006.normalize ("https://a.com/x" ++ "" ++ "#other") ∧
     P006.normalize ("https://a.com/x" ++ "?q=1" ++ "#frag") = "https://a.com/x") ∧
    ((P006.topLinks [⟨some "https://a.com/x?q=1#frag", "Title one"⟩,
        ⟨some "https://a.com/x#other", "Title two"⟩] "https://in" 5).map
      fun e => P006.normalize e.href).Nodup :=
  c6_normalize_dedupe_key "https://a.com/x" "?q=1" "#frag" "" "#other"
    (by decide) (by decide) (by decide) (Or.inr (by decide)) (by decide)
    (Or.inr (by decide)) (Or.inl rfl) (by decide) (Or.inr (by decide))
    [⟨some "https://a.com/x?q=1#frag", "Title one"⟩,
     ⟨some "https://a.com/x#other", "Title two"⟩] "https://in" 5
